import Mathlib

/-!
# AIChat gateway: a shallow embedding of `backend/server.js`

The handlers of `backend/server.js` are embedded as pure functions.  Everything
a handler reads from outside (environment variables, the clock, the answers of
the network, the run of a child process, faults of the file system) is an
explicit argument; everything it does (file-system calls, network calls,
child launches, the response it sends) is appended to a trace of events, and
the file system is threaded through as a value.
-/

set_option autoImplicit false

namespace AIChat

/-! ## JavaScript strings -/

/-- Lower-casing of one character as `String.prototype.toLowerCase` does it,
for the characters whose lower-case form contains an ASCII character: the
letters `A`..`Z`, the Kelvin sign U+212A (to `k`) and the dotted capital I
U+0130 (to `i` followed by U+0307).  Any other character is kept: its
lower-case form has no ASCII character, and the code compares lower-cased text
with ASCII literals only. -/
def lowerChar (c : Char) : List Char :=
  if c = Char.ofNat 0x212A then ['k']
  else if c = Char.ofNat 0x0130 then ['i', Char.ofNat 0x0307]
  else [c.toLower]

/-- `s.toLowerCase()`. -/
def toLowerCase (s : String) : String :=
  ⟨s.data.flatMap lowerChar⟩

/-- `s.endsWith(suffix)`. -/
def endsWith (s suffix : String) : Bool :=
  decide (suffix.data <:+ s.data)

/-- `s.startsWith(start)`. -/
def startsWith (s start : String) : Bool :=
  decide (start.data <+: s.data)

/-- `s.includes(part)`. -/
def includes (s part : String) : Bool :=
  decide (part.data <:+: s.data)

/-- `path.join(dir, name)` for a normalised directory path without a trailing
separator and a single path segment, the only way the server calls it. -/
def pathJoin (dir name : String) : String :=
  dir ++ "/" ++ name

/-! ## JavaScript values and errors -/

/-- A value produced by `JSON.parse` (a number is kept as a rational: every
finite double is one, and the code only tests numbers for truthiness). -/
inductive Json where
  | null
  | bool (b : Bool)
  | num (q : Rat)
  | str (s : String)
  | arr (xs : List Json)
  | obj (kvs : List (String × Json))

/-- A JavaScript value the handlers meet: `none` is `undefined`. -/
abbrev JsVal := Option Json

/-- An `Error` object: its `name`, `message` and (for system and fetch errors)
`code`. -/
structure JsError where
  name : String
  message : String
  code : Option String := none
  deriving DecidableEq, Repr

/-- The `TypeError` V8 raises for `value.key` when `value` is `null` or
`undefined`. -/
def typeErrorRead (what key : String) : JsError :=
  { name := "TypeError",
    message := "Cannot read properties of " ++ what ++ " (reading \x27" ++ key ++ "\x27)" }

/-- JavaScript truthiness of a parsed JSON value. -/
def Json.truthy : Json → Bool
  | .null => false
  | .bool b => b
  | .num q => decide (q ≠ 0)
  | .str s => decide (s ≠ "")
  | .arr _ => true
  | .obj _ => true

/-- JavaScript truthiness, `undefined` included. -/
def truthy : JsVal → Bool
  | none => false
  | some j => j.truthy

/-- The first value stored under `k` in the members of an object; `JSON.parse`
keeps the last of repeated keys, so the list of a parsed object has each key
once. -/
def lookupKey (k : String) : List (String × Json) → JsVal
  | [] => none
  | (k', v) :: rest => if k' = k then some v else lookupKey k rest

/-- Property read `value.key` (or `value[key]`) on a non-null value, for the
keys the server reads (`error`, `message`, `candidates`, `content`, `parts`,
`text`, `models`, `name`, `model`, `response`, `version` and the index `0`),
none of which is a member of a built-in prototype: an object gives its
member, an array or a string answers the index `0` with its first element or
character (the first code point here, the first code unit in JavaScript: the
server never sends such a character back), anything else gives `undefined`. -/
def getProp (v : Json) (key : String) : JsVal :=
  match v with
  | .obj kvs => lookupKey key kvs
  | .arr xs => if key = "0" then xs.head? else none
  | .str s => if key = "0" then (s.data.head?).map (fun c => Json.str (String.singleton c)) else none
  | _ => none

/-- Property read `value.key` on any value: reading from `null` or `undefined`
throws a `TypeError`. -/
def readProp (v : JsVal) (key : String) : Except JsError JsVal :=
  match v with
  | none => .error (typeErrorRead "undefined" key)
  | some .null => .error (typeErrorRead "null" key)
  | some j => .ok (getProp j key)

/-! ## The model catalog -/

/-- One entry of the GGUF catalog: `{ name, path }`. -/
structure ModelDescriptor where
  name : String
  path : String
  deriving DecidableEq, Repr

/-- `scanGGUFModels` (`server.js` 47-60): `readdir` is what
`fs.readdirSync(modelsDir)` gives, a listing or a thrown error. -/
def scanGGUFModels (modelsDir : String) (readdir : Except JsError (List String)) :
    List ModelDescriptor :=
  match readdir with
  | .ok files =>
    let ggufFiles := files.filter (fun file => endsWith (toLowerCase file) ".gguf")
    ggufFiles.map (fun file => { name := file, path := pathJoin modelsDir file })
  | .error _ => []

/-! ## The file system -/

/-- The part of the file system the server touches: regular files with their
text, and directories. -/
structure FS where
  files : List (String × String)
  dirs : List String
  deriving DecidableEq, Repr

/-- A call of the `fs` module that can throw. -/
inductive FsOp where
  | mkdir (p : String)
  | write (p : String)
  | read (p : String)
  | unlink (p : String)
  | rmdir (p : String)
  deriving DecidableEq, Repr

/-- Faults of the platform (permissions, a full disk, ...): the error a call
throws for a reason the model of the file system does not see, if any. -/
abbrev Faults := FsOp → Option JsError

/-- A system error with its `code`. -/
def sysError (code what : String) : JsError :=
  { name := "Error", message := code ++ ": " ++ what, code := some code }

def FS.isFile (fs : FS) (p : String) : Bool :=
  fs.files.any (fun e => e.1 == p)

def FS.isDir (fs : FS) (p : String) : Bool :=
  fs.dirs.contains p

/-- `fs.existsSync(p)`. -/
def FS.existsSync (fs : FS) (p : String) : Bool :=
  fs.isFile p || fs.isDir p

/-- The text of the file at `p`, if there is one. -/
def FS.content (fs : FS) (p : String) : Option String :=
  (fs.files.find? (fun e => e.1 == p)).map (fun e => e.2)

/-- Whether something lives below the directory `p`. -/
def FS.hasEntryBelow (fs : FS) (p : String) : Bool :=
  fs.files.any (fun e => startsWith e.1 (p ++ "/")) || fs.dirs.any (fun d => startsWith d (p ++ "/"))

/-- `path.dirname(p)` for a path with a separator in it. -/
def dirname (p : String) : String :=
  ⟨((p.data.reverse.dropWhile (fun c => c != '/')).drop 1).reverse⟩

/-- `fs.mkdirSync(p, { recursive: true })`, the parents taken to exist: an
existing directory is left alone, a file in the way is an error. -/
def mkdirSync (faults : Faults) (fs : FS) (p : String) : Except JsError FS :=
  match faults (.mkdir p) with
  | some e => .error e
  | none =>
    if fs.isFile p then .error (sysError "EEXIST" "file already exists, mkdir")
    else if fs.isDir p then .ok fs
    else .ok { fs with dirs := p :: fs.dirs }

/-- The `TypeError` of `fs.writeFileSync` for data that is not a string
(`inspect` is `util.inspect`, used in the message for numbers and booleans). -/
def invalidDataError (inspect : Json → String) (data : JsVal) : JsError :=
  let received :=
    match data with
    | none => "undefined"
    | some .null => "null"
    | some (.obj _) => "an instance of Object"
    | some (.arr _) => "an instance of Array"
    | some (.bool b) => "type boolean (" ++ inspect (.bool b) ++ ")"
    | some (.num q) => "type number (" ++ inspect (.num q) ++ ")"
    | some (.str s) => "type string (" ++ inspect (.str s) ++ ")"
  { name := "TypeError",
    message := "The \"data\" argument must be of type string or an instance of Buffer, TypedArray, or DataView. Received " ++ received,
    code := some "ERR_INVALID_ARG_TYPE" }

/-- `fs.writeFileSync(p, data)`: data that is not a string is refused before
the file system is touched; the file is created or replaced.  The open fails
with `EISDIR` on a directory, with `ENOTDIR` when the parent is a regular
file and with `ENOENT` when there is no parent. -/
def writeFileSync (inspect : Json → String) (faults : Faults) (fs : FS) (p : String)
    (data : JsVal) : Except JsError FS :=
  match data with
  | some (.str text) =>
    match faults (.write p) with
    | some e => .error e
    | none =>
      if fs.isDir p then .error (sysError "EISDIR" "illegal operation on a directory, open")
      else if fs.isDir (dirname p) then
        .ok { fs with files := (p, text) :: fs.files.filter (fun e => e.1 != p) }
      else if fs.isFile (dirname p) then .error (sysError "ENOTDIR" "not a directory, open")
      else .error (sysError "ENOENT" "no such file or directory, open")
  | _ => .error (invalidDataError inspect data)

/-- `fs.readFileSync(p, 'utf8')`. -/
def readFileSync (faults : Faults) (fs : FS) (p : String) : Except JsError String :=
  match faults (.read p) with
  | some e => .error e
  | none =>
    match fs.content p with
    | some text => .ok text
    | none =>
      if fs.isDir p then .error (sysError "EISDIR" "illegal operation on a directory, read")
      else .error (sysError "ENOENT" "no such file or directory, open")

/-- `fs.unlinkSync(p)`. -/
def unlinkSync (faults : Faults) (fs : FS) (p : String) : Except JsError FS :=
  match faults (.unlink p) with
  | some e => .error e
  | none =>
    if fs.isFile p then .ok { fs with files := fs.files.filter (fun e => e.1 != p) }
    else if fs.isDir p then .error (sysError "EISDIR" "illegal operation on a directory, unlink")
    else .error (sysError "ENOENT" "no such file or directory, unlink")

/-- `fs.rmdirSync(p)`: only an empty directory is removed. -/
def rmdirSync (faults : Faults) (fs : FS) (p : String) : Except JsError FS :=
  match faults (.rmdir p) with
  | some e => .error e
  | none =>
    if !fs.isDir p then
      (if fs.isFile p then .error (sysError "ENOTDIR" "not a directory, rmdir")
       else .error (sysError "ENOENT" "no such file or directory, rmdir"))
    else if fs.hasEntryBelow p then .error (sysError "ENOTEMPTY" "directory not empty, rmdir")
    else .ok { fs with dirs := fs.dirs.filter (fun d => d != p) }

/-! ## Responses and events -/

/-- What a handler sends: the HTTP status and the members of the JSON body. -/
structure Response where
  status : Nat
  body : List (String × Json)

/-- The members `JSON.stringify` keeps of an object literal: a member whose
value is `undefined` is dropped. -/
def jsonBody (members : List (String × JsVal)) : List (String × Json) :=
  members.filterMap (fun m => m.2.map (fun v => (m.1, v)))

/-- `res.json(body)`: status 200. -/
def Response.json (members : List (String × JsVal)) : Response :=
  { status := 200, body := jsonBody members }

/-- `res.status(code).json(body)`. -/
def Response.statusJson (code : Nat) (members : List (String × JsVal)) : Response :=
  { status := code, body := jsonBody members }

/-- The member of the body named `k`. -/
def Response.field (r : Response) (k : String) : JsVal :=
  lookupKey k r.body

/-- What a handler does to the world, in the order it does it. -/
inductive Event where
  | fsCall (op : FsOp)
  | netCall (method url : String) (body : Option Json)
  | exec (command : String) (timeout : Nat)
  | respond (r : Response)
  | uncaught (e : JsError)

/-- The responses sent, in order. -/
def responses : List Event → List Response
  | [] => []
  | .respond r :: rest => r :: responses rest
  | _ :: rest => responses rest

/-- The child processes launched, in order. -/
def launches : List Event → List (String × Nat)
  | [] => []
  | .exec c t :: rest => (c, t) :: launches rest
  | _ :: rest => launches rest

/-- The calls of the `fs` module made, in order. -/
def fsCalls : List Event → List FsOp
  | [] => []
  | .fsCall op :: rest => op :: fsCalls rest
  | _ :: rest => fsCalls rest

/-- The errors that escaped, in order. -/
def uncaughts : List Event → List JsError
  | [] => []
  | .uncaught e :: rest => e :: uncaughts rest
  | _ :: rest => uncaughts rest

/-- The network calls issued, in order: method and URL. -/
def netCalls : List Event → List (String × String)
  | [] => []
  | .netCall m u _ :: rest => (m, u) :: netCalls rest
  | _ :: rest => netCalls rest

/-! ## The GGUF handler: `POST /api/gguf/:modelName` -/

/-- The `error` argument of an `exec` callback: its message, and whether the
child was killed (as it is at the deadline), its exit code and signal. -/
structure ExecError where
  message : String
  killed : Bool := false
  code : Option Nat := none
  signal : Option String := none
  deriving DecidableEq, Repr

/-- One run of a child process as the `exec` callback sees it: `error`,
`stdout`, `stderr`, and what the run left in the file its output was
redirected to (`none`: the file was not created). -/
structure ChildRun where
  error : Option ExecError
  stdout : String
  stderr : String
  output : Option String
  deriving DecidableEq, Repr

/-- Module-level state of the server: the models directory, the executable
found at start-up and the current catalog snapshot. -/
structure ServerCfg where
  modelsDir : String
  llamaPath : String
  ggufModels : List ModelDescriptor

/-- What the outside world contributes to one GGUF request: the clock, the
faults of the file system, `util.inspect`, the runs of the primary and of the
fallback child, and `spawnFault`: the error with which the system refuses to
start the shell for a command, if it does (`spawn E2BIG` or
`spawn ENAMETOOLONG` for a command it finds too long, `spawn ENOMEM`), which
`exec` throws at its caller; a failure it reports to the callback instead
(`ENOENT`, `EACCES`, a non-zero exit, the deadline) is the `error` of the run. -/
structure GgufWorld where
  now : Nat
  faults : Faults
  inspect : Json → String
  primary : ChildRun
  fallback : ChildRun
  spawnFault : String → Option JsError := fun _ => none

/-- The workspace directory of a request: `path.join(modelsDir, 'temp_' + Date.now())`
(`server.js` 396-397). -/
def tempDir (modelsDir : String) (requestId : Nat) : String :=
  pathJoin modelsDir ("temp_" ++ toString requestId)

/-- The prompt file of a workspace (`server.js` 404). -/
def promptFile (dir : String) : String :=
  pathJoin dir "prompt.txt"

/-- The output file of a workspace (`server.js` 408). -/
def outputFile (dir : String) : String :=
  pathJoin dir "output.txt"

/-- The primary command (`server.js` 412). -/
def command (llamaPath modelPath promptFile outputFile : String) : String :=
  llamaPath ++ " -m " ++ modelPath ++ " -f " ++ promptFile ++
    " -n 512 --temp 0.7 --repeat_penalty 1.1 -ngl 1 > " ++ outputFile

/-- The fallback command (`server.js` 469). -/
def fallbackCommand (llamaPath modelPath message : String) : String :=
  llamaPath ++ " -m " ++ modelPath ++ " -p \"" ++ message ++ "\" -n 256"

/-- The character NUL. -/
def nul : Char := Char.ofNat 0

/-- The rendering of a value in the message of `ERR_INVALID_ARG_VALUE`: that
of `util.inspect`, cut after 128 characters (code points here, code units in
JavaScript). -/
def abbreviate (rendering : String) : String :=
  if rendering.length > 128 then String.mk (rendering.data.take 128) ++ "..." else rendering

/-- The `TypeError` with which `child_process` refuses a command that holds a
NUL byte. -/
def nullBytesError (inspect : Json → String) (command : String) : JsError :=
  { name := "TypeError",
    message := "The argument \x27command\x27 must be a string without null bytes. Received "
      ++ abbreviate (inspect (.str command)),
    code := some "ERR_INVALID_ARG_VALUE" }

/-- The error `exec(command, ...)` throws at its caller in place of launching
a child, if any: a command that holds a NUL byte is refused before anything
is started, and the system may refuse the launch. -/
def execThrows (w : GgufWorld) (command : String) : Option JsError :=
  if command.data.contains nul then some (nullBytesError w.inspect command)
  else w.spawnFault command

/-- What the redirect of the primary command leaves in the output file. -/
def applyChild (fs : FS) (outputFile : String) (run : ChildRun) : FS :=
  match run.output with
  | some text => { fs with files := (outputFile, text) :: fs.files.filter (fun e => e.1 != outputFile) }
  | none => fs

/-- Reading the output file (`server.js` 419-428): the text read, or the
empty string when the file is absent or the read throws. -/
def readResponse (faults : Faults) (fs : FS) (outputFile : String) : String × List Event :=
  if fs.existsSync outputFile then
    match readFileSync faults fs outputFile with
    | .ok text => (text, [.fsCall (.read outputFile)])
    | .error _ => ("", [.fsCall (.read outputFile)])
  else ("", [])

/-- The cleanup pass (`server.js` 431-439): unlink the prompt file, unlink the
output file if it exists, remove the directory; the first call that throws
ends the pass, and the error is only logged. -/
def cleanup (faults : Faults) (fs : FS) (promptFile outputFile tempDir : String) :
    FS × List Event :=
  match unlinkSync faults fs promptFile with
  | .error _ => (fs, [.fsCall (.unlink promptFile)])
  | .ok fs1 =>
    if fs1.existsSync outputFile then
      match unlinkSync faults fs1 outputFile with
      | .error _ => (fs1, [.fsCall (.unlink promptFile), .fsCall (.unlink outputFile)])
      | .ok fs2 =>
        match rmdirSync faults fs2 tempDir with
        | .error _ =>
          (fs2, [.fsCall (.unlink promptFile), .fsCall (.unlink outputFile), .fsCall (.rmdir tempDir)])
        | .ok fs3 =>
          (fs3, [.fsCall (.unlink promptFile), .fsCall (.unlink outputFile), .fsCall (.rmdir tempDir)])
    else
      match rmdirSync faults fs1 tempDir with
      | .error _ => (fs1, [.fsCall (.unlink promptFile), .fsCall (.rmdir tempDir)])
      | .ok fs3 => (fs3, [.fsCall (.unlink promptFile), .fsCall (.rmdir tempDir)])

/-- The callback of the fallback `exec` (`server.js` 472-483). -/
def fallbackCallback (run : ChildRun) : Response :=
  match run.error with
  | some fallbackError =>
    Response.statusJson 500
      [("error", some (.str "Failed to generate response with llama.cpp")),
       ("message", some (.str "Both standard and fallback commands failed")),
       ("details", some (.str fallbackError.message))]
  | none => Response.json [("response", some (.str run.stdout))]

/-- The answer for a GPU error of the primary child (`server.js` 452-455). -/
def gpuFailure : Response :=
  Response.statusJson 500
    [("error", some (.str "CUDA error while running llama.cpp")),
     ("message", some (.str "There was a GPU error. Try using CPU mode by setting -ngl 0"))]

/-- The generic answer for a failed primary child (`server.js` 459-463) with
the text `detail` as its message. -/
def processFailure (llamaPath detail : String) : Response :=
  Response.statusJson 500
    [("error", some (.str "Error running llama.cpp")),
     ("message", some (.str detail)),
     ("details", some (.str
        ("Make sure llama.cpp is installed correctly and accessible at: " ++ llamaPath)))]

/-- The part of the primary callback after the cleanup (`server.js` 441-489):
`response` is the text read from the output file.  The `exec` of the fallback
(`server.js` 472) is inside no `try`: when it throws, no child is launched,
no response is sent and the error escapes the callback. -/
def afterCleanup (cfg : ServerCfg) (w : GgufWorld) (modelPath message response : String) :
    List Event :=
  match w.primary.error with
  | some error =>
    if response ≠ "" then [.respond (Response.json [("response", some (.str response))])]
    else if w.primary.stderr ≠ "" ∧ includes w.primary.stderr "CUDA" then [.respond gpuFailure]
    else
      [.respond (processFailure cfg.llamaPath
        (if w.primary.stderr ≠ "" then w.primary.stderr
         else if error.message ≠ "" then error.message
         else "Unknown error"))]
  | none =>
    if response = "" then
      match execThrows w (fallbackCommand cfg.llamaPath modelPath message) with
      | some e => [.uncaught e]
      | none =>
        [.exec (fallbackCommand cfg.llamaPath modelPath message) 30000,
         .respond (fallbackCallback w.fallback)]
    else [.respond (Response.json [("response", some (.str response))])]

/-- The callback of the primary `exec` (`server.js` 417-490), run on the file
system the child left: read the output, clean up, answer. -/
def primaryCallback (cfg : ServerCfg) (w : GgufWorld) (modelPath message : String) (fs : FS) :
    FS × List Event :=
  let dir := tempDir cfg.modelsDir w.now
  let read := readResponse w.faults fs (outputFile dir)
  let clean := cleanup w.faults fs (promptFile dir) (outputFile dir) dir
  (clean.1, read.2 ++ clean.2 ++ afterCleanup cfg w modelPath message read.1)

/-- The answer of the outer `catch` (`server.js` 491-497). -/
def outerCatch (error : JsError) : Event :=
  .respond (Response.statusJson 500
    [("error", some (.str "Failed to process GGUF model request")),
     ("message", some (.str error.message))])

/-- The creation of the workspace (`server.js` 399-401): the directory is
made unless something exists at its path. -/
def makeWorkspace (faults : Faults) (fs : FS) (dir : String) : Except JsError (FS × List Event) :=
  if !fs.existsSync dir then
    match mkdirSync faults fs dir with
    | .ok fs1 => .ok (fs1, [.fsCall (.mkdir dir)])
    | .error e => .error e
  else .ok (fs, [])

/-- The writing of the prompt file and the launch of the primary child
(`server.js` 404-417) in the workspace `dir`.  `fs.writeFileSync` refuses a
`message` that is not a string before it touches the file system; an `exec`
that throws is answered by the outer `catch`, with the prompt file written. -/
def writeAndLaunch (cfg : ServerCfg) (w : GgufWorld) (modelPath dir : String) (message : JsVal)
    (fs1 : FS) : FS × List Event × Option (String × String) :=
  match message with
  | some (.str text) =>
    match writeFileSync w.inspect w.faults fs1 (promptFile dir) (some (.str text)) with
    | .error e => (fs1, [.fsCall (.write (promptFile dir)), outerCatch e], none)
    | .ok fs2 =>
      match execThrows w (command cfg.llamaPath modelPath (promptFile dir) (outputFile dir)) with
      | some e => (fs2, [.fsCall (.write (promptFile dir)), outerCatch e], none)
      | none =>
        (fs2, [.fsCall (.write (promptFile dir)),
               .exec (command cfg.llamaPath modelPath (promptFile dir) (outputFile dir)) 60000],
          some (modelPath, text))
  | data =>
    (fs1, [.fsCall (.write (promptFile dir)), outerCatch (invalidDataError w.inspect data)], none)

/-- The body of the `try` of the handler up to the launch of the primary
child (`server.js` 394-417); an error thrown on the way is answered by the
outer `catch`. -/
def tryLaunch (cfg : ServerCfg) (w : GgufWorld) (modelPath : String) (message : JsVal)
    (fs : FS) : FS × List Event × Option (String × String) :=
  let dir := tempDir cfg.modelsDir w.now
  match makeWorkspace w.faults fs dir with
  | .error e => (fs, [.fsCall (.mkdir dir), outerCatch e], none)
  | .ok made =>
    let next := writeAndLaunch cfg w modelPath dir message made.1
    (next.1, made.2 ++ next.2.1, next.2.2)

/-- The answer for a name that is not in the catalog (`server.js` 377-380). -/
def modelNotInCatalog (modelName : String) : Response :=
  Response.statusJson 404
    [("error", some (.str ("Model \"" ++ modelName ++ "\" not found"))),
     ("message", some (.str
        "Please make sure the model file is in the models directory and has a .gguf extension"))]

/-- The answer for a catalogued model whose file is gone (`server.js` 388-391). -/
def modelFileMissing (modelName modelPath : String) : Response :=
  Response.statusJson 404
    [("error", some (.str "Model file not found")),
     ("message", some (.str
        ("The model file " ++ modelName ++ " could not be found at " ++ modelPath)))]

/-- The synchronous part of the handler of `POST /api/gguf/:modelName`
(`server.js` 367-417), up to the launch of the primary child: `modelName` is
the route parameter, `message` the `message` member of the body (`none` when
the body has none), `fs` the file system at the request.  Gives the file
system and the events so far, and, when the primary child was launched, the
model path and the prompt text the callback will use. -/
def ggufStart (cfg : ServerCfg) (w : GgufWorld) (modelName : String) (message : JsVal)
    (fs : FS) : FS × List Event × Option (String × String) :=
  match cfg.ggufModels.find? (fun m => m.name == modelName) with
  | none => (fs, [.respond (modelNotInCatalog modelName)], none)
  | some model =>
    if !fs.existsSync model.path then
      (fs, [.respond (modelFileMissing modelName model.path)], none)
    else tryLaunch cfg w model.path message fs

/-- The text the primary callback reads from the output file, on the file
system `fs2` the synchronous part left and after the run of the primary
child: the `response` of `server.js` 419-428. -/
def outputRead (cfg : ServerCfg) (w : GgufWorld) (fs2 : FS) : String :=
  (readResponse w.faults
    (applyChild fs2 (outputFile (tempDir cfg.modelsDir w.now)) w.primary)
    (outputFile (tempDir cfg.modelsDir w.now))).1

/-- The handler of `POST /api/gguf/:modelName` (`server.js` 367-498): the
synchronous part, then the run of the primary child and its callback.  Gives
the file system once the response is sent, and the events in order. -/
def ggufHandler (cfg : ServerCfg) (w : GgufWorld) (modelName : String) (message : JsVal)
    (fs : FS) : FS × List Event :=
  let started := ggufStart cfg w modelName message fs
  match started.2.2 with
  | none => (started.1, started.2.1)
  | some (modelPath, text) =>
    let dir := tempDir cfg.modelsDir w.now
    let fs3 := applyChild started.1 (outputFile dir) w.primary
    let done := primaryCallback cfg w modelPath text fs3
    (done.1, started.2.1 ++ done.2)

/-- Whether the caller sees a success: `response.ok` of `fetch`, a status
from 200 to 299 (`App.jsx` 215). -/
def Response.ok (r : Response) : Bool :=
  decide (200 ≤ r.status ∧ r.status < 300)

/-! ## The network -/

/-- A response of `fetch` as the handlers use it: `ok`, `status`, and what
`json()` gives (the parsed body, or the error it rejects with). -/
structure HttpReply where
  ok : Bool
  status : Nat
  json : Except JsError Json

/-- The outcome of one `fetch`: it rejects, or it resolves to a response. -/
inductive FetchResult where
  | threw (e : JsError)
  | reply (r : HttpReply)

/-- The error `new Error(message)`. -/
def newError (message : String) : JsError :=
  { name := "Error", message := message }

/-- Conversion of a value to a string where the code puts it into a message;
`toStr` is the conversion of JavaScript for a value that is not a string. -/
def asString (toStr : Json → String) : Json → String
  | .str s => s
  | v => toStr v

/-! ## The Gemini handler: `POST /api/gemini` -/

/-- The text sent when no credential is configured (`server.js` 73). -/
def simulatedResponse : String :=
  "This is a simulated Gemini response because no valid API key was found. Add a valid Gemini API key to the .env file or try another model."

/-- The text sent when the payload has no text at the expected path
(`server.js` 119). -/
def unparsedResponse : String :=
  "Received response from Gemini API but could not parse the content."

/-- The URL of the Gemini call (`server.js` 78-80). -/
def geminiUrl (apiKey : String) : String :=
  "https://generativelanguage.googleapis.com/v1beta/models/gemini-pro:generateContent" ++
    "?key=" ++ apiKey

/-- The body of the Gemini call (`server.js` 87-99). -/
def geminiRequestBody (message : JsVal) : Json :=
  .obj [("contents", .arr [.obj [("parts", .arr [.obj (jsonBody [("text", message)])])]]),
        ("generationConfig", .obj [("temperature", .num (7 / 10)), ("maxOutputTokens", .num 1000)])]

/-- The answer of the `catch` of the Gemini handler (`server.js` 120-123). -/
def geminiCatch (error : JsError) : Event :=
  .respond (Response.statusJson 500 [("error", some (.str error.message))])

/-- The extraction of the text from a non-null payload without a vendor error
(`server.js` 108-119). -/
def geminiExtract (data : Json) : Response :=
  let candidates := getProp data "candidates"
  match candidates with
  | some c =>
    if c.truthy then
      match getProp c "0" with
      | some c0 =>
        if c0.truthy then
          match getProp c0 "content" with
          | some content =>
            if content.truthy then
              match getProp content "parts" with
              | some parts =>
                if parts.truthy then
                  match getProp parts "0" with
                  | some part =>
                    if part.truthy then Response.json [("response", getProp part "text")]
                    else Response.json [("response", some (.str unparsedResponse))]
                  | none => Response.json [("response", some (.str unparsedResponse))]
                else Response.json [("response", some (.str unparsedResponse))]
              | none => Response.json [("response", some (.str unparsedResponse))]
            else Response.json [("response", some (.str unparsedResponse))]
          | none => Response.json [("response", some (.str unparsedResponse))]
        else Response.json [("response", some (.str unparsedResponse))]
      | none => Response.json [("response", some (.str unparsedResponse))]
    else Response.json [("response", some (.str unparsedResponse))]
  | none => Response.json [("response", some (.str unparsedResponse))]

/-- What the Gemini handler does with the parsed payload (`server.js` 104-119):
a vendor error is thrown, otherwise the text is extracted. -/
def geminiOnData (toStr : Json → String) (data : Json) : Event :=
  match readProp (some data) "error" with
  | .error e => geminiCatch e
  | .ok err =>
    match err with
    | some errVal =>
      if errVal.truthy then
        match getProp errVal "message" with
        | some m =>
          if m.truthy then geminiCatch (newError (asString toStr m))
          else geminiCatch (newError "Error from Gemini API")
        | none => geminiCatch (newError "Error from Gemini API")
      else .respond (geminiExtract data)
    | none => .respond (geminiExtract data)

/-- The handler of `POST /api/gemini` (`server.js` 66-124): `apiKey` is
`process.env.GEMINI_API_KEY` (`none` when unset), `fetch` the outcome of the
one call to the vendor, `message` the `message` member of the body, which
`express.json()` leaves an object. -/
def geminiHandler (apiKey : Option String) (toStr : Json → String) (fetch : FetchResult)
    (message : JsVal) : List Event :=
  match apiKey with
  | none => [.respond (Response.json [("response", some (.str simulatedResponse))])]
  | some key =>
    if key = "" ∨ key = "your_gemini_api_key" then
      [.respond (Response.json [("response", some (.str simulatedResponse))])]
    else
      let call := Event.netCall "POST" (geminiUrl key) (some (geminiRequestBody message))
      match fetch with
      | .threw e => [call, geminiCatch e]
      | .reply r =>
        match r.json with
        | .error e => [call, geminiCatch e]
        | .ok data => [call, geminiOnData toStr data]

/-- The value at a path of property names in a payload, read as JavaScript
reads `data?.a?.b`: `undefined` as soon as a step meets `undefined` or `null`.
This is the reading of "the path `candidates[0].content.parts[0]`" the
claims about the extraction are stated with. -/
def getPath : JsVal → List String → JsVal
  | v, [] => v
  | none, _ :: _ => none
  | some .null, _ :: _ => none
  | some j, k :: ks => getPath (getProp j k) ks

/-- The path the Gemini handler takes the text from. -/
def geminiTextPath : List String :=
  ["candidates", "0", "content", "parts", "0"]

/-! ## The Ollama handler: `POST /api/ollama/:model` -/

/-- What the network answers to the liveness probe and to the generation call
of one Ollama request, and the string conversion of JavaScript. -/
structure OllamaWorld where
  version : FetchResult
  generate : FetchResult
  toStr : Json → String

def ollamaVersionUrl : String := "http://localhost:11434/api/version"

def ollamaTagsUrl : String := "http://localhost:11434/api/tags"

def ollamaGenerateUrl : String := "http://localhost:11434/api/generate"

/-- The liveness probe (`server.js` 199-209): the error its `try` block ends
with, if any. -/
def ollamaProbe (version : FetchResult) : Option JsError :=
  match version with
  | .threw e => some e
  | .reply r =>
    if !r.ok then some (newError ("Ollama server responded with status " ++ toString r.status))
    else
      match r.json with
      | .error e => some e
      | .ok versionData =>
        match readProp (some versionData) "version" with
        | .error e => some e
        | .ok _ => none

/-- The answer to a failed probe (`server.js` 210-227). -/
def ollamaUnavailable (error : JsError) : Response :=
  let errorMessage :=
    if error.name = "AbortError" then
      "Ollama server connection timed out. The server might be busy or not running."
    else if error.code = some "ECONNREFUSED" then
      "Connection to Ollama server refused. Make sure Ollama is running with \"ollama serve\""
    else "Please start the Ollama server on your machine and try again"
  Response.statusJson 503
    [("error", some (.str "Ollama server not running or not reachable")),
     ("message", some (.str errorMessage)),
     ("details", some (.str "To start Ollama, run this in your terminal: ollama serve")),
     ("technical", some (.str error.message))]

/-- The identifier rewriting (`server.js` 254-258). -/
def actualModel (model : String) : String :=
  if includes (toLowerCase model) "deepseek" ∧ ¬ includes model "deepseek-coder:1.5b" then
    "deepseek-coder:1.5b"
  else model

/-- The body of the generation call (`server.js` 266-274). -/
def ollamaRequestBody (model : String) (message : JsVal) : Json :=
  .obj (jsonBody
    [("model", some (.str model)),
     ("prompt", message),
     ("stream", some (.bool false)),
     ("options", some (.obj [("temperature", .num (7 / 10)), ("num_predict", .num 1024)]))])

/-- The error `response.text()` rejects with once `response.json()` has read
the body (both calls of `text()` in the handler come after `json()`). -/
def bodyUsed (url : String) : JsError :=
  { name := "TypeError", message := "body used already for: " ++ url }

/-- The answer of the outer `catch` of the Ollama handler (`server.js` 303-309). -/
def ollamaCatch (model : String) (error : JsError) : Event :=
  .respond (Response.statusJson 500
    [("error", some (.str ("Failed to generate response from Ollama model \"" ++ model ++ "\""))),
     ("message", some (.str error.message))])

/-- The answer for a model the daemon does not have (`server.js` 290-293). -/
def ollamaModelNotFound (actual : String) : Event :=
  .respond (Response.statusJson 404
    [("error", some (.str ("Model \"" ++ actual ++ "\" not found in your Ollama installation"))),
     ("message", some (.str ("Try pulling the model first with: ollama pull " ++ actual)))])

/-- The error `errorText.includes(...)` throws when `errorText` has no such
method. -/
def notAFunction : JsError :=
  { name := "TypeError", message := "errorText.includes is not a function" }

/-- The handling of a non-OK answer to the generation call (`server.js`
277-297): `errorText` is the truthy `error` member of the parsed body; in
every other case `response.text()` is called on a body already read. -/
def ollamaNotOk (toStr : Json → String) (model : String) (r : HttpReply) : Event :=
  let thrown (errorText : Json) : Event :=
    ollamaCatch model (newError ("Ollama API responded with status " ++ toString r.status ++
      ": " ++ asString toStr errorText))
  match r.json with
  | .error _ => ollamaCatch model (bodyUsed ollamaGenerateUrl)
  | .ok errorData =>
    match readProp (some errorData) "error" with
    | .error _ => ollamaCatch model (bodyUsed ollamaGenerateUrl)
    | .ok none => ollamaCatch model (bodyUsed ollamaGenerateUrl)
    | .ok (some errorText) =>
      if !errorText.truthy then ollamaCatch model (bodyUsed ollamaGenerateUrl)
      else
        match errorText with
        | .str text =>
          if includes text "model not found" then ollamaModelNotFound (actualModel model)
          else thrown errorText
        | .arr items =>
          if items.any (fun item => match item with
              | .str text => text == "model not found"
              | _ => false)
          then ollamaModelNotFound (actualModel model)
          else thrown errorText
        | _ => ollamaCatch model notAFunction

/-- The `errorText` the handler extracts from a non-OK answer to the
generation call (`server.js` 278-284): the truthy `error` member of the parsed
body; `none` when the body does not parse or has no truthy `error` member, in
which case `response.text()` throws and nothing is extracted. -/
def ollamaErrorText (r : HttpReply) : Option Json :=
  match r.json with
  | .error _ => none
  | .ok errorData =>
    match readProp (some errorData) "error" with
    | .ok (some errorText) => if errorText.truthy then some errorText else none
    | _ => none

/-- The handling of an OK answer to the generation call (`server.js` 299-302). -/
def ollamaOk (model : String) (r : HttpReply) : Event :=
  match r.json with
  | .error e => ollamaCatch model e
  | .ok data =>
    match readProp (some data) "response" with
    | .error e => ollamaCatch model e
    | .ok response => .respond (Response.json [("response", response)])

/-- The handler of `POST /api/ollama/:model` (`server.js` 190-310): `model`
is the route parameter, `message` the `message` member of the body.  The
block that lists the models for debugging (`server.js` 230-250) only logs and
swallows its errors: its one effect is the call it issues. -/
def ollamaHandler (w : OllamaWorld) (model : String) (message : JsVal) : List Event :=
  match readProp message "length" with
  | .error e => [.uncaught e]
  | .ok _ =>
    let probeCall := Event.netCall "GET" ollamaVersionUrl none
    match ollamaProbe w.version with
    | some error => [probeCall, .respond (ollamaUnavailable error)]
    | none =>
      let tagsCall := Event.netCall "GET" ollamaTagsUrl none
      let generateCall :=
        Event.netCall "POST" ollamaGenerateUrl (some (ollamaRequestBody (actualModel model) message))
      match w.generate with
      | .threw e => [probeCall, tagsCall, generateCall, ollamaCatch model e]
      | .reply r =>
        if !r.ok then [probeCall, tagsCall, generateCall, ollamaNotOk w.toStr model r]
        else [probeCall, tagsCall, generateCall, ollamaOk model r]

/-! ## The test handler: `POST /api/test` -/

/-- The jokes of the test handler (`server.js` 516-521). -/
def jokes : List String :=
  ["Why don\x27t scientists trust atoms? Because they make up everything!",
   "Why did the scarecrow win an award? Because he was outstanding in his field!",
   "What\x27s a programmer\x27s favorite place to hang out? The foo bar.",
   "Why don\x27t programmers like nature? It has too many bugs."]

/-- The canned text for a message (`server.js` 507-525); `pick` is
`Math.floor(Math.random() * jokes.length)`. -/
def testResponse (message : String) (pick : Fin 4) : String :=
  let lower := toLowerCase message
  if includes lower "hello" ∨ includes lower "hi" then
    "Hello! I\x27m a test AI assistant. How can I help you today?"
  else if includes lower "help" then
    "I\x27m a test assistant that simulates AI responses. You can ask me questions, and I\x27ll provide simple canned responses based on keywords in your message. Try asking about \x27weather\x27, my \x27name\x27, or request a \x27joke\x27."
  else if includes lower "weather" then
    "I don\x27t have real-time weather data, but I can tell you that it\x27s always sunny in the test environment!"
  else if includes lower "name" then "My name is TestBot, a simulated AI assistant."
  else if includes lower "joke" then jokes.getD pick.val ""
  else
    "This is a test response to: \"" ++ message ++
      "\". I\x27m a simulated AI assistant. Try asking about \x27help\x27, \x27weather\x27, \x27name\x27, or request a \x27joke\x27."

/-- The handler of `POST /api/test` (`server.js` 501-531): `message` is the
`message` member of the body.  `message.toLowerCase()` is called outside any
`try`: it throws for `undefined` and `null`, and for a value that has no such
method. -/
def testHandler (message : JsVal) (pick : Fin 4) : List Event :=
  match message with
  | none => [.uncaught (typeErrorRead "undefined" "toLowerCase")]
  | some .null => [.uncaught (typeErrorRead "null" "toLowerCase")]
  | some (.str text) => [.respond (Response.json [("response", some (.str (testResponse text pick)))])]
  | some _ => [.uncaught { name := "TypeError", message := "message.toLowerCase is not a function" }]

/-! ## The discovery of the executable: `findLlamaCppExecutable` -/

/-- The candidate names (`server.js` 322-330). -/
def possibleExecutables : List String :=
  ["llama-main", "llama", "main", "llama_main", "llama.cpp", "llama_cpp", "llama-server"]

/-- The text `process.env.NAME + '...'` starts with: the value, or `undefined`
when the variable is unset. -/
def envText : Option String → String
  | some value => value
  | none => "undefined"

/-- The candidate directories (`server.js` 333-346); `home` is
`process.env.HOME`. -/
def possiblePaths (home : Option String) : List String :=
  ["/usr/bin",
   "/usr/local/bin",
   "/opt/llama.cpp",
   "/opt/llama.cpp/build",
   "/opt/llama",
   "/opt/llama/build",
   envText home ++ "/llama.cpp",
   envText home ++ "/llama.cpp/build",
   envText home ++ "/llama",
   envText home ++ "/llama/build",
   "/home/chase/llama.cpp",
   "/home/chase/llama.cpp/build"]

/-- The inner loop (`server.js` 350-356): the first name of the list that
exists in the directory `path`, as a full path. -/
def findInDirectory (fs : FS) (path : String) : List String → Option String
  | [] => none
  | executable :: rest =>
    let fullPath := path ++ "/" ++ executable
    if fs.existsSync fullPath then some fullPath else findInDirectory fs path rest

/-- The outer loop (`server.js` 349-357): the first directory of the list in
which the inner loop finds a name. -/
def findInDirectories (fs : FS) : List String → Option String
  | [] => none
  | path :: rest =>
    match findInDirectory fs path possibleExecutables with
    | some fullPath => some fullPath
    | none => findInDirectories fs rest

/-- `findLlamaCppExecutable` (`server.js` 320-361): `home` and `llamaPathEnv`
are `process.env.HOME` and `process.env.LLAMA_PATH`. -/
def findLlamaCppExecutable (home llamaPathEnv : Option String) (fs : FS) : String :=
  match findInDirectories fs (possiblePaths home) with
  | some fullPath => fullPath
  | none =>
    match llamaPathEnv with
    | some configured => if configured ≠ "" then configured else "llama-main"
    | none => "llama-main"

/-- The candidates in the order the claims name them: directory by directory,
and within a directory name by name. -/
def llamaCandidates (home : Option String) : List String :=
  (possiblePaths home).flatMap (fun dir => possibleExecutables.map (fun name => dir ++ "/" ++ name))

/-! ## The model listing: `GET /api/ollama/models` and its use in `App.jsx` -/

/-- Whether a value is `null`. -/
def Json.isNull : Json → Bool
  | .null => true
  | _ => false

/-- The extraction of the model list from the payload of the daemon
(`server.js` 155-162): `data.models` when that is an array, else `data` when
that is an array, else the empty list; reading `models` from `null` throws. -/
def extractModels (data : Json) : Except JsError (List Json) :=
  match readProp (some data) "models" with
  | .error e => .error e
  | .ok (some (.arr models)) => .ok models
  | .ok _ =>
    match data with
    | .arr models => .ok models
    | _ => .ok []

mutual
/-- Whether `String(value)` succeeds for a parsed value, as
`Array.prototype.join` applies it to an element.  An object is converted by
`Object.prototype.toString`, unless it has a member `toString` of its own:
that one is found first, is never a function after `JSON.parse`, and neither
is a `valueOf` of its own, while the inherited `valueOf` gives the object
back, so the conversion throws a `TypeError`.  An array is converted by
joining its elements, each converted in turn. -/
def Json.stringable : Json → Bool
  | .obj kvs => (lookupKey "toString" kvs).isNone
  | .arr xs => allStringable xs
  | _ => true
/-- Whether the conversion succeeds for every value of a list. -/
def allStringable : List Json → Bool
  | [] => true
  | x :: xs => x.stringable && allStringable xs
end

/-- The value `model.name || model` of an entry that is not `null`. -/
def nameOrModel (model : Json) : Json :=
  match getProp model "name" with
  | some name => if name.truthy then name else model
  | none => model

/-- The `TypeError` V8 raises when an object has no usable conversion. -/
def cannotConvert : JsError :=
  { name := "TypeError", message := "Cannot convert object to primitive value" }

/-- The error the logging of the names throws, if any (`server.js` 166-167,
`models.map(model => model.name || model).join(', ')`): first the `map`,
which throws on reading `name` from an entry that is `null`; then the `join`,
which throws when one of the mapped values cannot be converted to a string. -/
def logModelNames (models : List Json) : Option JsError :=
  if models.any Json.isNull then some (typeErrorRead "null" "name")
  else if allStringable (models.map nameOrModel) then none
  else some cannotConvert

/-- The liveness probe of the listing (`server.js` 132-136), which does not
look at the status: the error its `try` block ends with, if any. -/
def listingProbe (version : FetchResult) : Option JsError :=
  match version with
  | .threw e => some e
  | .reply r =>
    match r.json with
    | .error e => some e
    | .ok versionData =>
      match readProp (some versionData) "version" with
      | .error e => some e
      | .ok _ => none

/-- The answer to a failed probe of the listing (`server.js` 138-141). -/
def listingUnavailable : Response :=
  Response.statusJson 503
    [("error", some (.str "Cannot connect to Ollama server")),
     ("message", some (.str
        "Make sure Ollama is running with \"ollama serve\" and listening on port 11434"))]

/-- The answer of the inner `catch` of the listing (`server.js` 173-179). -/
def listingFailed (error : JsError) : Response :=
  Response.statusJson 500
    [("error", some (.str "Failed to fetch Ollama models list")),
     ("message", some (.str error.message))]

/-- What the listing does with the answer to `GET /api/tags` (`server.js`
146-179). -/
def listingOnTags (tags : FetchResult) : Response :=
  match tags with
  | .threw e => listingFailed e
  | .reply r =>
    if !r.ok then
      listingFailed (newError ("Ollama API responded with status code " ++ toString r.status))
    else
      match r.json with
      | .error e => listingFailed e
      | .ok data =>
        match extractModels data with
        | .error e => listingFailed e
        | .ok models =>
          match logModelNames models with
          | some e => listingFailed e
          | none => Response.json [("models", some (.arr models))]

/-- The handler of `GET /api/ollama/models` (`server.js` 127-187): `version`
and `tags` are the outcomes of the two calls to the daemon. -/
def ollamaModelsHandler (version tags : FetchResult) : List Event :=
  match listingProbe version with
  | some _ => [.netCall "GET" ollamaVersionUrl none, .respond listingUnavailable]
  | none =>
    [.netCall "GET" ollamaVersionUrl none, .netCall "GET" ollamaTagsUrl none,
     .respond (listingOnTags tags)]

/-- The normalisation of one entry (`App.jsx` 110-119): a string becomes
`{ name: model }`; an entry without a truthy `name` and with a truthy `model`
becomes `{ name: model.model }`; any other entry is kept; reading `name` from
`null` throws. -/
def processModel (model : Json) : Except JsError Json :=
  match model with
  | .str text => .ok (.obj [("name", .str text)])
  | .null => .error (typeErrorRead "null" "name")
  | entry =>
    if !truthy (getProp entry "name") && truthy (getProp entry "model") then
      match getProp entry "model" with
      | some identifier => .ok (.obj [("name", identifier)])
      | none => .ok entry
    else .ok entry

/-- `processedModels` (`App.jsx` 110-119): `data.models.map(...)`, entry by
entry from the left; the first entry that throws ends it. -/
def processedModels : List Json → Except JsError (List Json)
  | [] => .ok []
  | model :: rest =>
    match processModel model with
    | .error e => .error e
    | .ok entry =>
      match processedModels rest with
      | .error e => .error e
      | .ok entries => .ok (entry :: entries)

/-! ## The setup script: `setPath` of `setup-llama.js` -/

/-- The line terminators of regular expressions: `.` does not match them and
`$` with the flag `m` matches before them. -/
def isLineTerminator (c : Char) : Bool :=
  c = '\n' || c = '\r' || c = Char.ofNat 0x2028 || c = Char.ofNat 0x2029

/-- The text before and after the first occurrence of `needle` in a text, if
it occurs. -/
def splitAtFirst (needle : List Char) : List Char → Option (List Char × List Char)
  | [] => if needle = [] then some ([], []) else none
  | c :: cs =>
    if needle <+: c :: cs then some ([], (c :: cs).drop needle.length)
    else (splitAtFirst needle cs).map (fun found => (c :: found.1, found.2))

/-- The expansion of a replacement text by `String.prototype.replace` for a
pattern without capture groups: `$$` is a dollar sign, `$&` the matched text,
a dollar sign followed by a backtick the text before the match, a dollar sign
followed by an apostrophe the text after it; any other dollar sign is kept. -/
def expandReplacement (matched before after : List Char) : List Char → List Char
  | [] => []
  | c :: rest =>
    if c = '$' then
      match rest with
      | [] => ['$']
      | d :: rest2 =>
        if d = '$' then '$' :: expandReplacement matched before after rest2
        else if d = '&' then matched ++ expandReplacement matched before after rest2
        else if d = Char.ofNat 96 then before ++ expandReplacement matched before after rest2
        else if d = Char.ofNat 39 then after ++ expandReplacement matched before after rest2
        else '$' :: d :: expandReplacement matched before after rest2
    else c :: expandReplacement matched before after rest

/-- `envContent.replace(/LLAMA_PATH=.*$/m, replacement)` (`setup-llama.js`
118): the leftmost match starts at the first occurrence of `LLAMA_PATH=` and
runs to the end of its line; that text is replaced by the expanded
replacement. -/
def replaceLlamaPath (envContent replacement : String) : String :=
  match splitAtFirst "LLAMA_PATH=".data envContent.data with
  | none => envContent
  | some (before, afterKey) =>
    let lineRest := afterKey.takeWhile (fun c => !isLineTerminator c)
    let after := afterKey.dropWhile (fun c => !isLineTerminator c)
    ⟨before ++ expandReplacement ("LLAMA_PATH=".data ++ lineRest) before after replacement.data
      ++ after⟩

/-- The content `setPath` writes to `backend/.env` (`setup-llama.js` 104-125):
`prior` is the content of the file before, `none` when it does not exist. -/
def setPath (prior : Option String) (llamaPath : String) : String :=
  let envContent := prior.getD ""
  if includes envContent "LLAMA_PATH=" then
    replaceLlamaPath envContent ("LLAMA_PATH=" ++ llamaPath)
  else envContent ++ "\nLLAMA_PATH=" ++ llamaPath ++ "\n"

/-- The lines of a text, split at the line feed. -/
def splitLines : List Char → List (List Char)
  | [] => [[]]
  | c :: cs =>
    if c = '\n' then [] :: splitLines cs
    else
      match splitLines cs with
      | [] => [[c]]
      | line :: lines => (c :: line) :: lines

/-- Whether a file content defines `LLAMA_PATH` as `llamaPath`: one of its
lines is exactly `LLAMA_PATH=<llamaPath>`. -/
def definesLlamaPath (content llamaPath : String) : Bool :=
  (splitLines content.data).contains ("LLAMA_PATH=" ++ llamaPath).data

/-! ## The chat list of `App.jsx` -/

/-- A chat session: `{ id, title, messages }`. -/
structure Chat where
  id : Nat
  title : String
  messages : List Json

/-- The state `deleteChat` works on: `chatHistory` and `activeChatId` (`none`
is `null`). -/
structure ChatState where
  chatHistory : List Chat
  activeChatId : Option Nat

/-- `deleteChat` (`App.jsx` 285-299) as one step on the state, the updater
run once: `now` is `Date.now()`. -/
def deleteChat (now : Nat) (state : ChatState) (chatId : Nat) : ChatState :=
  let newHistory := state.chatHistory.filter (fun chat => chat.id != chatId)
  match newHistory with
  | [] =>
    let newChat : Chat := { id := now, title := "New Chat", messages := [] }
    { chatHistory := [newChat], activeChatId := some newChat.id }
  | first :: _ =>
    if state.activeChatId = some chatId then
      { chatHistory := newHistory, activeChatId := some first.id }
    else { chatHistory := newHistory, activeChatId := state.activeChatId }

/-- What the claims about the normalisation ask of an entry `entry` and its
normalised form `out`: the identifier of the entry (the entry itself when it
is a string, else its truthy `name`, else its truthy `model`) is the `name`
of `out`. -/
def exposesIdentifier (entry out : Json) : Prop :=
  (∀ text, entry = .str text → getProp out "name" = some (.str text))
    ∧ ((∀ text, entry ≠ .str text) → truthy (getProp entry "name") = true →
        getProp out "name" = getProp entry "name")
    ∧ ((∀ text, entry ≠ .str text) → truthy (getProp entry "name") = false →
        truthy (getProp entry "model") = true → getProp out "name" = getProp entry "model")

/-! ## A concrete deployment, for evaluating the handlers -/

/-- A server whose models directory holds `a.gguf`. -/
def demoCfg : ServerCfg :=
  { modelsDir := "/srv/models",
    llamaPath := "llama-main",
    ggufModels := scanGGUFModels "/srv/models" (.ok ["a.gguf", "notes.txt"]) }

/-- The file system of that server before a request. -/
def demoFS : FS :=
  { files := [("/srv/models/a.gguf", "weights"), ("/srv/models/notes.txt", "todo")],
    dirs := ["/srv/models"] }

/-- A world without faults in which the primary child exits cleanly after
writing `hello` to the output file. -/
def demoWorld : GgufWorld :=
  { now := 1700000000000,
    faults := fun _ => none,
    inspect := fun _ => "",
    primary := { error := none, stdout := "", stderr := "", output := some "hello" },
    fallback := { error := none, stdout := "from the fallback", stderr := "", output := none } }

/-- The same world with a full disk: writing the prompt file throws. -/
def fullDiskWorld : GgufWorld :=
  { demoWorld with
    faults := fun op =>
      match op with
      | .write _ => some (sysError "ENOSPC" "no space left on device, write")
      | _ => none }

/-- A world in which the primary child is killed at the deadline after
writing part of its answer. -/
def killedWorld : GgufWorld :=
  { demoWorld with
    primary :=
      { error := some { message := "Command failed", killed := true, signal := some "SIGTERM" },
        stdout := "", stderr := "", output := some "partial answer" } }

/-- A world in which the primary child exits cleanly and writes nothing. -/
def silentWorld : GgufWorld :=
  { demoWorld with primary := { error := none, stdout := "", stderr := "", output := some "" } }

/-- A world in which the primary child fails with a CUDA message on its error
stream and an empty output file. -/
def cudaWorld : GgufWorld :=
  { demoWorld with
    primary :=
      { error := some { message := "Command failed", code := some 1 },
        stdout := "", stderr := "CUDA error: out of memory", output := some "" } }

/-- A world in which the primary child exits cleanly and writes nothing, and
the fallback child fails. -/
def bothFailWorld : GgufWorld :=
  { demoWorld with
    primary := { error := none, stdout := "", stderr := "", output := some "" },
    fallback :=
      { error := some { message := "Command failed: llama-main", code := some 127 },
        stdout := "", stderr := "llama-main: not found", output := none } }

/-- A world in which the primary child is killed after writing part of its
answer, the read of the output file throws, and so does every removal. -/
def brokenDiskWorld : GgufWorld :=
  { killedWorld with
    faults := fun op =>
      match op with
      | .read _ => some (sysError "EIO" "i/o error, read")
      | .unlink _ => some (sysError "EACCES" "permission denied, unlink")
      | .rmdir _ => some (sysError "EACCES" "permission denied, rmdir")
      | _ => none }

/-- The same world when only the read of the output file throws. -/
def unreadableWorld : GgufWorld :=
  { killedWorld with
    faults := fun op =>
      match op with
      | .read _ => some (sysError "EIO" "i/o error, read")
      | _ => none }

/-- A world in which the primary child is killed at the deadline and leaves an
empty output file. -/
def timedOutWorld : GgufWorld :=
  { demoWorld with
    primary :=
      { error := some { message := "Command failed: llama-main", killed := true,
                        signal := some "SIGTERM" },
        stdout := "", stderr := "", output := some "" } }

/-- A world in which the primary child exits with code 1 and leaves an empty
output file. -/
def crashedWorld : GgufWorld :=
  { demoWorld with
    primary :=
      { error := some { message := "Command failed: llama-main", code := some 1 },
        stdout := "", stderr := "", output := some "" } }

/-- A machine on which only `/usr/local/bin/llama` and `/opt/llama/main`
exist. -/
def toolsFS : FS :=
  { files := [("/opt/llama/main", "binary"), ("/usr/local/bin/llama", "binary")],
    dirs := ["/usr/local/bin", "/opt/llama"] }

/-- The string conversion used where a concrete one is needed: strings only. -/
def demoToStr : Json → String
  | .str s => s
  | _ => ""

/-- A daemon that refuses the connection. -/
def downWorld : OllamaWorld :=
  { version := .threw { name := "FetchError", message := "connect ECONNREFUSED 127.0.0.1:11434",
                        code := some "ECONNREFUSED" },
    generate := .reply { ok := true, status := 200, json := .ok (.obj [("response", .str "hi")]) },
    toStr := demoToStr }

/-- A running daemon that answers the generation call with `model not found`. -/
def missingModelWorld : OllamaWorld :=
  { version := .reply { ok := true, status := 200, json := .ok (.obj [("version", .str "0.5.1")]) },
    generate := .reply { ok := false, status := 404, json := .ok (.obj [("error", .str "model not found")]) },
    toStr := demoToStr }

/-- The answer of that daemon for the model `llama3`. -/
def llama3NotFound : Response :=
  Response.statusJson 404
    [("error", some (.str "Model \"llama3\" not found in your Ollama installation")),
     ("message", some (.str "Try pulling the model first with: ollama pull llama3"))]

/-- A world in which the primary child exits cleanly and writes nothing, and
the fallback child exits cleanly and prints nothing. -/
def emptyFallbackWorld : GgufWorld :=
  { demoWorld with
    primary := { error := none, stdout := "", stderr := "", output := some "" },
    fallback := { error := none, stdout := "", stderr := "", output := none } }

/-- Two chats, the first one active. -/
def demoChats : ChatState :=
  { chatHistory :=
      [{ id := 1700000000001, title := "New Chat", messages := [] },
       { id := 1700000000000, title := "New Chat", messages := [] }],
    activeChatId := some 1700000000001 }

/-! ## Lemmas on traces -/

theorem responses_append (a b : List Event) : responses (a ++ b) = responses a ++ responses b := by
  induction a with
  | nil => rfl
  | cons e a ih => cases e <;> simp [responses, ih]

theorem launches_append (a b : List Event) : launches (a ++ b) = launches a ++ launches b := by
  induction a with
  | nil => rfl
  | cons e a ih => cases e <;> simp [launches, ih]

theorem readResponse_events (faults : Faults) (fs : FS) (p : String) :
    responses (readResponse faults fs p).2 = [] ∧ launches (readResponse faults fs p).2 = [] := by
  unfold readResponse
  split
  · split <;> simp [responses, launches]
  · simp [responses, launches]

theorem cleanup_events (faults : Faults) (fs : FS) (a b d : String) :
    responses (cleanup faults fs a b d).2 = [] ∧ launches (cleanup faults fs a b d).2 = [] := by
  unfold cleanup
  repeat' split
  all_goals simp [responses, launches]

theorem makeWorkspace_events (faults : Faults) (fs : FS) (dir : String) (made : FS × List Event)
    (h : makeWorkspace faults fs dir = .ok made) :
    responses made.2 = [] ∧ launches made.2 = [] := by
  unfold makeWorkspace at h
  split at h
  · split at h
    · cases h; simp [responses, launches]
    · cases h
  · cases h; simp [responses, launches]

theorem writeAndLaunch_launched (cfg : ServerCfg) (w : GgufWorld) (modelPath dir : String)
    (message : JsVal) (fs1 fs2 : FS) (ev : List Event) (mp text : String)
    (h : writeAndLaunch cfg w modelPath dir message fs1 = (fs2, ev, some (mp, text))) :
    responses ev = [] ∧
      launches ev = [(command cfg.llamaPath mp (promptFile dir) (outputFile dir), 60000)] ∧
      message = some (.str text) := by
  unfold writeAndLaunch at h
  split at h
  · split at h
    · simp at h
    · split at h
      · simp at h
      · simp only [Prod.mk.injEq, Option.some.injEq] at h
        obtain ⟨-, rfl, rfl, rfl⟩ := h
        simp [responses, launches]
  · simp at h

theorem ggufStart_launched (cfg : ServerCfg) (w : GgufWorld) (modelName : String)
    (message : JsVal) (fs fs2 : FS) (ev : List Event) (modelPath text : String)
    (h : ggufStart cfg w modelName message fs = (fs2, ev, some (modelPath, text))) :
    responses ev = [] ∧
      launches ev = [(command cfg.llamaPath modelPath (promptFile (tempDir cfg.modelsDir w.now))
        (outputFile (tempDir cfg.modelsDir w.now)), 60000)] ∧
      message = some (.str text) := by
  unfold ggufStart at h
  split at h
  · simp at h
  · split at h
    · simp at h
    · unfold tryLaunch at h
      dsimp only at h
      split at h
      · simp at h
      · rename_i made hmade
        simp only [Prod.mk.injEq] at h
        obtain ⟨h1, h2, h3⟩ := h
        have hw := writeAndLaunch_launched cfg w _ _ message made.1 _ _ modelPath text
          (Prod.ext rfl (Prod.ext rfl h3))
        have hm := makeWorkspace_events _ _ _ _ hmade
        subst h2
        exact ⟨by rw [responses_append, hm.1, hw.1]; rfl,
          by rw [launches_append, hm.2, hw.2.1]; rfl, hw.2.2⟩

theorem writeAndLaunch_not_launched (cfg : ServerCfg) (w : GgufWorld) (modelPath dir : String)
    (message : JsVal) (fs1 : FS)
    (h : (writeAndLaunch cfg w modelPath dir message fs1).2.2 = none) :
    launches (writeAndLaunch cfg w modelPath dir message fs1).2.1 = [] := by
  unfold writeAndLaunch at h ⊢
  split
  · split
    · simp [launches, outerCatch]
    · rename_i heq
      simp only [heq] at h
      split
      · simp [launches, outerCatch]
      · rename_i hx
        simp [hx] at h
  · simp [launches, outerCatch]

theorem tryLaunch_not_launched (cfg : ServerCfg) (w : GgufWorld) (modelPath : String)
    (message : JsVal) (fs : FS)
    (h : (tryLaunch cfg w modelPath message fs).2.2 = none) :
    launches (tryLaunch cfg w modelPath message fs).2.1 = [] := by
  unfold tryLaunch at h ⊢
  dsimp only at h ⊢
  cases hmade : makeWorkspace w.faults fs (tempDir cfg.modelsDir w.now) with
  | error e => simp [launches, outerCatch]
  | ok made =>
    simp only [hmade] at h ⊢
    have hm := makeWorkspace_events _ _ _ _ hmade
    have hw := writeAndLaunch_not_launched cfg w _ _ message made.1 h
    simp [launches_append, hm.2, hw]

theorem ggufStart_not_launched (cfg : ServerCfg) (w : GgufWorld) (modelName : String)
    (message : JsVal) (fs : FS)
    (h : (ggufStart cfg w modelName message fs).2.2 = none) :
    launches (ggufStart cfg w modelName message fs).2.1 = [] := by
  unfold ggufStart at h ⊢
  cases hfind : cfg.ggufModels.find? (fun m => m.name == modelName) with
  | none => simp [launches]
  | some model =>
    simp only [hfind] at h ⊢
    by_cases hex : fs.existsSync model.path = true
    · simp only [hex, Bool.not_true, if_false, Bool.false_eq_true] at h ⊢
      exact tryLaunch_not_launched cfg w _ message fs h
    · simp [hex, launches]

theorem getPath_truthy (j : Json) (k : String) (ks : List String) (h : j.truthy = true) :
    getPath (some j) (k :: ks) = getPath (getProp j k) ks := by
  cases j <;> simp [Json.truthy] at h <;> simp [getPath]

theorem geminiExtract_absent (data : Json)
    (hstep : getPath (getProp data "candidates") ["0", "content", "parts", "0"] = none) :
    geminiExtract data = Response.json [("response", some (.str unparsedResponse))] := by
  unfold geminiExtract
  cases h1 : getProp data "candidates" with
  | none => rfl
  | some c =>
    simp only []
    by_cases t1 : c.truthy = true
    · rw [h1, getPath_truthy c _ _ t1] at hstep
      simp only [t1, if_true]
      cases h2 : getProp c "0" with
      | none => rfl
      | some c0 =>
        simp only []
        by_cases t2 : c0.truthy = true
        · rw [h2, getPath_truthy c0 _ _ t2] at hstep
          simp only [t2, if_true]
          cases h3 : getProp c0 "content" with
          | none => rfl
          | some content =>
            simp only []
            by_cases t3 : content.truthy = true
            · rw [h3, getPath_truthy content _ _ t3] at hstep
              simp only [t3, if_true]
              cases h4 : getProp content "parts" with
              | none => rfl
              | some parts =>
                simp only []
                by_cases t4 : parts.truthy = true
                · rw [h4, getPath_truthy parts _ _ t4] at hstep
                  simp only [t4, if_true]
                  simp only [getPath] at hstep
                  rw [hstep]
                · simp [t4]
            · simp [t3]
        · simp [t2]
    · simp [t1]

theorem ollamaNotOk_cases (toStr : Json → String) (model : String) (r : HttpReply) :
    (∃ e, ollamaNotOk toStr model r = ollamaCatch model e) ∨
      ollamaNotOk toStr model r = ollamaModelNotFound (actualModel model) := by
  unfold ollamaNotOk
  cases hj : r.json with
  | error e => exact Or.inl ⟨_, rfl⟩
  | ok errorData =>
    dsimp only
    cases hr : readProp (some errorData) "error" with
    | error e => exact Or.inl ⟨_, rfl⟩
    | ok v =>
      cases v with
      | none => exact Or.inl ⟨_, rfl⟩
      | some errorText =>
        dsimp only
        by_cases ht : errorText.truthy = true
        · simp only [ht, Bool.not_true, Bool.false_eq_true, if_false]
          cases errorText with
          | str text =>
            dsimp only
            by_cases hi : includes text "model not found" = true
            · exact Or.inr (by simp only [hi, if_true])
            · exact Or.inl ⟨_, by simp only [hi, if_false]; rfl⟩
          | arr items =>
            dsimp only
            split
            · exact Or.inr rfl
            · exact Or.inl ⟨_, rfl⟩
          | null => exact Or.inl ⟨_, rfl⟩
          | bool b => exact Or.inl ⟨_, rfl⟩
          | num q => exact Or.inl ⟨_, rfl⟩
          | obj kvs => exact Or.inl ⟨_, rfl⟩
        · simp only [ht, Bool.not_false, if_true]
          exact Or.inl ⟨_, rfl⟩

theorem ollamaOk_cases (model : String) (r : HttpReply) :
    (∃ e, ollamaOk model r = ollamaCatch model e) ∨
      ∃ v, ollamaOk model r = .respond (Response.json [("response", v)]) := by
  unfold ollamaOk
  cases hj : r.json with
  | error e => exact Or.inl ⟨_, rfl⟩
  | ok data =>
    dsimp only
    cases hr : readProp (some data) "response" with
    | error e => exact Or.inl ⟨_, rfl⟩
    | ok v => exact Or.inr ⟨v, rfl⟩

theorem ollamaHandler_responses (w : OllamaWorld) (model : String) (message : JsVal)
    (r : Response) (hr : r ∈ responses (ollamaHandler w model message)) :
    (∃ e, r = ollamaUnavailable e) ∨ (∃ e, Event.respond r = ollamaCatch model e) ∨
      Event.respond r = ollamaModelNotFound (actualModel model) ∨
      ∃ v, r = Response.json [("response", v)] := by
  unfold ollamaHandler at hr
  cases hm : readProp message "length" with
  | error e => simp [hm, responses] at hr
  | ok v =>
    simp only [hm] at hr
    cases hp : ollamaProbe w.version with
    | some e =>
      simp [hp, responses] at hr
      exact Or.inl ⟨e, hr⟩
    | none =>
      simp only [hp] at hr
      cases hg : w.generate with
      | threw e =>
        simp [hg, responses, ollamaCatch] at hr
        exact Or.inr (Or.inl ⟨e, by rw [hr]; rfl⟩)
      | reply rep =>
        simp only [hg] at hr
        by_cases hok : rep.ok = true
        · simp only [hok, Bool.not_true, Bool.false_eq_true, if_false] at hr
          rcases ollamaOk_cases model rep with ⟨e, he⟩ | ⟨v, hv⟩
          · simp [he, responses, ollamaCatch] at hr
            exact Or.inr (Or.inl ⟨e, by rw [hr]; rfl⟩)
          · simp [hv, responses] at hr
            exact Or.inr (Or.inr (Or.inr ⟨v, hr⟩))
        · simp only [hok, Bool.not_false, if_true] at hr
          rcases ollamaNotOk_cases w.toStr model rep with ⟨e, he⟩ | he
          · simp [he, responses, ollamaCatch] at hr
            exact Or.inr (Or.inl ⟨e, by rw [hr]; rfl⟩)
          · simp [he, responses, ollamaModelNotFound] at hr
            exact Or.inr (Or.inr (Or.inl (by rw [hr]; rfl)))

theorem ollamaNotOk_of_none (toStr : Json → String) (model : String) (r : HttpReply)
    (h : ollamaErrorText r = none) :
    ollamaNotOk toStr model r = ollamaCatch model (bodyUsed ollamaGenerateUrl) := by
  unfold ollamaErrorText at h
  unfold ollamaNotOk
  cases hj : r.json with
  | error e => rfl
  | ok errorData =>
    simp only [hj] at h ⊢
    cases hr : readProp (some errorData) "error" with
    | error e => rfl
    | ok v =>
      cases v with
      | none => rfl
      | some errorText =>
        simp only [hr] at h ⊢
        by_cases ht : errorText.truthy = true
        · simp [ht] at h
        · simp [ht]

theorem ollamaHandler_not_ok (w : OllamaWorld) (model : String) (message : Json) (r : HttpReply)
    (hmessage : message ≠ .null) (hprobe : ollamaProbe w.version = none)
    (hgen : w.generate = .reply r) (hnotok : r.ok = false) :
    ollamaHandler w model (some message)
      = [.netCall "GET" ollamaVersionUrl none, .netCall "GET" ollamaTagsUrl none,
         .netCall "POST" ollamaGenerateUrl
           (some (ollamaRequestBody (actualModel model) (some message))),
         ollamaNotOk w.toStr model r] := by
  have hread : ∃ v, readProp (some message) "length" = .ok v := by
    cases message <;> simp [readProp] at hmessage ⊢
  obtain ⟨v, hv⟩ := hread
  simp [ollamaHandler, hv, hprobe, hgen, hnotok]

theorem ollamaNotOk_of_value (toStr : Json → String) (model : String) (r : HttpReply)
    (v : Json) (h : ollamaErrorText r = some v) :
    ollamaNotOk toStr model r
      = match v with
        | .str text =>
          if includes text "model not found" then ollamaModelNotFound (actualModel model)
          else ollamaCatch model (newError ("Ollama API responded with status " ++
            toString r.status ++ ": " ++ asString toStr v))
        | .arr items =>
          if items.any (fun item => match item with
              | .str text => text == "model not found"
              | _ => false)
          then ollamaModelNotFound (actualModel model)
          else ollamaCatch model (newError ("Ollama API responded with status " ++
            toString r.status ++ ": " ++ asString toStr v))
        | _ => ollamaCatch model notAFunction := by
  unfold ollamaErrorText at h
  unfold ollamaNotOk
  cases hj : r.json with
  | error e => simp [hj] at h
  | ok errorData =>
    simp only [hj] at h ⊢
    cases hr : readProp (some errorData) "error" with
    | error e => simp [hr] at h
    | ok u =>
      cases u with
      | none => simp [hr] at h
      | some errorText =>
        simp only [hr] at h ⊢
        by_cases ht : errorText.truthy = true
        · simp only [ht, if_true, Option.some.injEq] at h
          subst h
          simp only [ht, Bool.not_true, Bool.false_eq_true, if_false]
          cases errorText <;> rfl
        · simp [ht] at h

theorem any_is_phrase (items : List Json) (phrase : String) :
    items.any (fun item => match item with
        | .str text => text == phrase
        | _ => false) = true ↔ ∃ item ∈ items, item = .str phrase := by
  rw [List.any_eq_true]
  constructor
  · rintro ⟨item, hmem, h⟩
    refine ⟨item, hmem, ?_⟩
    cases item <;> simp at h
    rw [h]
  · rintro ⟨item, hmem, rfl⟩
    exact ⟨_, hmem, by simp⟩

theorem fsCalls_append (a b : List Event) : fsCalls (a ++ b) = fsCalls a ++ fsCalls b := by
  induction a with
  | nil => rfl
  | cons e a ih => cases e <;> simp [fsCalls, ih]

theorem ggufHandler_launched (cfg : ServerCfg) (w : GgufWorld) (modelName : String)
    (message : JsVal) (fs fs2 : FS) (ev : List Event) (modelPath text : String)
    (h : ggufStart cfg w modelName message fs = (fs2, ev, some (modelPath, text))) :
    responses (ggufHandler cfg w modelName message fs).2
        = responses (afterCleanup cfg w modelPath text (outputRead cfg w fs2))
      ∧ launches (ggufHandler cfg w modelName message fs).2
        = (command cfg.llamaPath modelPath (promptFile (tempDir cfg.modelsDir w.now))
            (outputFile (tempDir cfg.modelsDir w.now)), 60000)
          :: launches (afterCleanup cfg w modelPath text (outputRead cfg w fs2)) := by
  have hs := ggufStart_launched cfg w modelName message fs fs2 ev modelPath text h
  have hr := readResponse_events w.faults
    (applyChild fs2 (outputFile (tempDir cfg.modelsDir w.now)) w.primary)
    (outputFile (tempDir cfg.modelsDir w.now))
  simp only [ggufHandler, h, primaryCallback, outputRead, responses_append, launches_append,
    hs.1, hs.2.1, hr.1, hr.2, (cleanup_events _ _ _ _ _).1, (cleanup_events _ _ _ _ _).2,
    List.nil_append, List.singleton_append, and_self]

theorem afterCleanup_response (cfg : ServerCfg) (w : GgufWorld) (modelPath text response : String) :
    responses (afterCleanup cfg w modelPath text response) = [] ∨
    ∃ r, responses (afterCleanup cfg w modelPath text response) = [r] ∧
      ((response ≠ "" ∧ r = Response.json [("response", some (.str response))]) ∨
        r = gpuFailure ∨ (∃ detail, r = processFailure cfg.llamaPath detail) ∨
        r = fallbackCallback w.fallback) := by
  unfold afterCleanup
  cases herr : w.primary.error with
  | some e =>
    dsimp only
    by_cases hresp : response = ""
    · by_cases hcuda : w.primary.stderr ≠ "" ∧ includes w.primary.stderr "CUDA" = true
      · exact Or.inr ⟨gpuFailure, by simp [hresp, hcuda, responses], Or.inr (Or.inl rfl)⟩
      · exact Or.inr ⟨_, by simp only [hresp, hcuda, ne_eq, not_true_eq_false, if_false]; rfl,
          Or.inr (Or.inr (Or.inl ⟨_, rfl⟩))⟩
    · exact Or.inr
        ⟨_, by simp only [ne_eq, hresp, not_false_eq_true, if_true]; rfl, Or.inl ⟨hresp, rfl⟩⟩
  | none =>
    dsimp only
    by_cases hresp : response = ""
    · cases hx : execThrows w (fallbackCommand cfg.llamaPath modelPath text) with
      | some e => exact Or.inl (by simp only [hresp, if_true, hx]; rfl)
      | none =>
        exact Or.inr ⟨_, by simp only [hresp, if_true, hx]; rfl, Or.inr (Or.inr (Or.inr rfl))⟩
    · exact Or.inr ⟨_, by simp only [hresp, if_false]; rfl, Or.inl ⟨hresp, rfl⟩⟩

theorem writeAndLaunch_refused (cfg : ServerCfg) (w : GgufWorld) (modelPath dir : String)
    (message : JsVal) (fs1 : FS)
    (h : (writeAndLaunch cfg w modelPath dir message fs1).2.2 = none) :
    ∃ e : JsError, responses (writeAndLaunch cfg w modelPath dir message fs1).2.1
      = [Response.statusJson 500
          [("error", some (.str "Failed to process GGUF model request")),
           ("message", some (.str e.message))]] := by
  cases message with
  | none => exact ⟨_, rfl⟩
  | some j =>
    cases j with
    | str text =>
      simp only [writeAndLaunch] at h ⊢
      cases hw : writeFileSync w.inspect w.faults fs1 (promptFile dir) (some (.str text)) with
      | error e => exact ⟨e, rfl⟩
      | ok fs2 =>
        simp only [hw] at h ⊢
        cases hx : execThrows w
            (command cfg.llamaPath modelPath (promptFile dir) (outputFile dir)) with
        | some e => exact ⟨e, rfl⟩
        | none => simp [hx] at h
    | null => exact ⟨_, rfl⟩
    | bool b => exact ⟨_, rfl⟩
    | num q => exact ⟨_, rfl⟩
    | arr xs => exact ⟨_, rfl⟩
    | obj kvs => exact ⟨_, rfl⟩

theorem ggufStart_refused (cfg : ServerCfg) (w : GgufWorld) (modelName : String)
    (message : JsVal) (fs : FS)
    (h : (ggufStart cfg w modelName message fs).2.2 = none) :
    ∃ r, responses (ggufStart cfg w modelName message fs).2.1 = [r] ∧
      (r = modelNotInCatalog modelName ∨ (∃ p, r = modelFileMissing modelName p) ∨
        ∃ e : JsError, r = Response.statusJson 500
          [("error", some (.str "Failed to process GGUF model request")),
           ("message", some (.str e.message))]) := by
  unfold ggufStart at h ⊢
  cases hfind : cfg.ggufModels.find? (fun m => m.name == modelName) with
  | none => exact ⟨_, rfl, Or.inl rfl⟩
  | some model =>
    simp only [hfind] at h ⊢
    by_cases hex : fs.existsSync model.path = true
    · simp only [hex, Bool.not_true, if_false, Bool.false_eq_true] at h ⊢
      unfold tryLaunch at h ⊢
      dsimp only at h ⊢
      cases hmade : makeWorkspace w.faults fs (tempDir cfg.modelsDir w.now) with
      | error e => exact ⟨_, rfl, Or.inr (Or.inr ⟨e, rfl⟩)⟩
      | ok made =>
        simp only [hmade] at h ⊢
        have hm := makeWorkspace_events _ _ _ _ hmade
        obtain ⟨e, he⟩ := writeAndLaunch_refused cfg w _ _ message made.1 h
        exact ⟨_, by rw [responses_append, hm.1, he]; rfl, Or.inr (Or.inr ⟨e, rfl⟩)⟩
    · exact ⟨modelFileMissing modelName model.path, by simp [hex, responses],
        Or.inr (Or.inl ⟨model.path, rfl⟩)⟩

theorem ggufStart_without_text (cfg : ServerCfg) (w : GgufWorld) (modelName : String) (fs : FS) :
    (ggufStart cfg w modelName none fs).2.2 = none := by
  unfold ggufStart
  split
  · rfl
  · split
    · rfl
    · unfold tryLaunch
      dsimp only
      split <;> rfl

theorem ggufHandler_response (cfg : ServerCfg) (w : GgufWorld) (modelName : String)
    (message : JsVal) (fs : FS) :
    responses (ggufHandler cfg w modelName message fs).2 = [] ∨
    ∃ r, responses (ggufHandler cfg w modelName message fs).2 = [r] ∧
      (r = modelNotInCatalog modelName ∨ (∃ p, r = modelFileMissing modelName p) ∨
        (∃ e : JsError, r = Response.statusJson 500
          [("error", some (.str "Failed to process GGUF model request")),
           ("message", some (.str e.message))]) ∨
        (∃ text, text ≠ "" ∧ r = Response.json [("response", some (.str text))]) ∨
        r = gpuFailure ∨ (∃ detail, r = processFailure cfg.llamaPath detail) ∨
        r = fallbackCallback w.fallback) := by
  cases hl : (ggufStart cfg w modelName message fs).2.2 with
  | none =>
    obtain ⟨r, hr, hcase⟩ := ggufStart_refused cfg w modelName message fs hl
    refine Or.inr ⟨r, by simp only [ggufHandler, hl]; exact hr, ?_⟩
    rcases hcase with h | h | h
    · exact Or.inl h
    · exact Or.inr (Or.inl h)
    · exact Or.inr (Or.inr (Or.inl h))
  | some launched =>
    obtain ⟨modelPath, text⟩ := launched
    have hh := ggufHandler_launched cfg w modelName message fs _ _ modelPath text
      (Prod.ext rfl (Prod.ext rfl hl))
    rcases afterCleanup_response cfg w modelPath text
      (outputRead cfg w (ggufStart cfg w modelName message fs).1) with hnone | ⟨r, hr, hcase⟩
    · exact Or.inl (by rw [hh.1, hnone])
    refine Or.inr ⟨r, by rw [hh.1, hr], ?_⟩
    rcases hcase with ⟨h1, h2⟩ | h | h | h
    · exact Or.inr (Or.inr (Or.inr (Or.inl ⟨_, h1, h2⟩)))
    · exact Or.inr (Or.inr (Or.inr (Or.inr (Or.inl h))))
    · exact Or.inr (Or.inr (Or.inr (Or.inr (Or.inr (Or.inl h)))))
    · exact Or.inr (Or.inr (Or.inr (Or.inr (Or.inr (Or.inr h)))))

theorem geminiExtract_status (data : Json) : (geminiExtract data).status = 200 := by
  unfold geminiExtract
  dsimp only
  repeat' split
  all_goals rfl

theorem geminiOnData_cases (toStr : Json → String) (data : Json) :
    (∃ e, geminiOnData toStr data = geminiCatch e) ∨
      geminiOnData toStr data = .respond (geminiExtract data) := by
  unfold geminiOnData
  cases hr : readProp (some data) "error" with
  | error e => exact Or.inl ⟨_, rfl⟩
  | ok v =>
    cases v with
    | none => exact Or.inr rfl
    | some errVal =>
      dsimp only
      by_cases ht : errVal.truthy = true
      · simp only [ht, if_true]
        cases hm : getProp errVal "message" with
        | none => exact Or.inl ⟨_, rfl⟩
        | some m =>
          dsimp only
          by_cases hmt : m.truthy = true
          · exact Or.inl ⟨newError (asString toStr m), by simp only [hmt, if_true]⟩
          · exact Or.inl ⟨_, by simp only [hmt]; rfl⟩
      · simp only [ht]
        exact Or.inr rfl

theorem geminiHandler_responses (apiKey : Option String) (toStr : Json → String)
    (fetch : FetchResult) (message : JsVal) (r : Response)
    (hr : r ∈ responses (geminiHandler apiKey toStr fetch message)) :
    r.status = 200 ∨ ∃ e : JsError, r = Response.statusJson 500 [("error", some (.str e.message))] := by
  unfold geminiHandler at hr
  cases apiKey with
  | none =>
    simp [responses] at hr
    exact Or.inl (by rw [hr]; rfl)
  | some key =>
    dsimp only at hr
    by_cases hk : key = "" ∨ key = "your_gemini_api_key"
    · simp only [hk, if_true] at hr
      simp [responses] at hr
      exact Or.inl (by rw [hr]; rfl)
    · simp only [hk, if_false] at hr
      cases fetch with
      | threw e =>
        simp [responses, geminiCatch] at hr
        exact Or.inr ⟨e, hr⟩
      | reply rep =>
        dsimp only at hr
        cases hj : rep.json with
        | error e =>
          simp [hj, responses, geminiCatch] at hr
          exact Or.inr ⟨e, hr⟩
        | ok data =>
          simp only [hj] at hr
          rcases geminiOnData_cases toStr data with ⟨e, he⟩ | he
          · simp [he, responses, geminiCatch] at hr
            exact Or.inr ⟨e, hr⟩
          · simp [he, responses] at hr
            exact Or.inl (by rw [hr]; exact geminiExtract_status data)

theorem makeWorkspace_faults (f1 f2 : Faults) (fs : FS) (dir : String)
    (h : ∀ p, f2 (.mkdir p) = f1 (.mkdir p)) :
    makeWorkspace f2 fs dir = makeWorkspace f1 fs dir := by
  simp only [makeWorkspace, mkdirSync, h]

theorem writeFileSync_faults (inspect : Json → String) (f1 f2 : Faults) (fs : FS) (p : String)
    (data : JsVal) (h : ∀ q, f2 (.write q) = f1 (.write q)) :
    writeFileSync inspect f2 fs p data = writeFileSync inspect f1 fs p data := by
  simp only [writeFileSync, h]

theorem readResponse_faults (f1 f2 : Faults) (fs : FS) (p : String)
    (h : ∀ q, f2 (.read q) = f1 (.read q)) :
    readResponse f2 fs p = readResponse f1 fs p := by
  simp only [readResponse, readFileSync, h]

theorem ggufStart_faults (cfg : ServerCfg) (w : GgufWorld) (faults2 : Faults)
    (modelName : String) (message : JsVal) (fs : FS)
    (hmkdir : ∀ p, faults2 (.mkdir p) = w.faults (.mkdir p))
    (hwrite : ∀ p, faults2 (.write p) = w.faults (.write p)) :
    ggufStart cfg { w with faults := faults2 } modelName message fs
      = ggufStart cfg w modelName message fs := by
  simp only [ggufStart, tryLaunch, writeAndLaunch, execThrows,
    makeWorkspace_faults w.faults faults2 _ _ hmkdir,
    writeFileSync_faults _ w.faults faults2 _ _ _ hwrite]

theorem cleanup_attempted (faults : Faults) (fs : FS) (a b d : String) :
    FsOp.unlink a ∈ fsCalls (cleanup faults fs a b d).2 := by
  unfold cleanup
  repeat' split
  all_goals simp [fsCalls]

theorem findInDirectory_eq (fs : FS) (path : String) (names : List String) :
    findInDirectory fs path names
      = (names.map (fun name => path ++ "/" ++ name)).find? (fun c => fs.existsSync c) := by
  induction names with
  | nil => rfl
  | cons name rest ih =>
    simp only [findInDirectory, List.map_cons, List.find?_cons]
    by_cases h : fs.existsSync (path ++ "/" ++ name) = true
    · simp [h]
    · simp [h, ih]

theorem findInDirectories_eq (fs : FS) (paths : List String) :
    findInDirectories fs paths
      = (paths.flatMap (fun dir => possibleExecutables.map (fun name => dir ++ "/" ++ name))).find?
          (fun c => fs.existsSync c) := by
  induction paths with
  | nil => rfl
  | cons path rest ih =>
    simp only [findInDirectories, List.flatMap_cons, List.find?_append, findInDirectory_eq, ih]
    cases (possibleExecutables.map (fun name => path ++ "/" ++ name)).find?
      (fun c => fs.existsSync c) <;> rfl

theorem candidate_ne_empty (dir name : String) : dir ++ "/" ++ name ≠ "" := by
  intro h
  have hd := congrArg String.data h
  simp at hd

theorem geminiHandler_one_response (apiKey : Option String) (toStr : Json → String)
    (fetch : FetchResult) (message : JsVal) :
    ∃ r, responses (geminiHandler apiKey toStr fetch message) = [r] := by
  unfold geminiHandler
  cases apiKey with
  | none => exact ⟨_, rfl⟩
  | some key =>
    dsimp only
    by_cases hk : key = "" ∨ key = "your_gemini_api_key"
    · simp only [hk, if_true]
      exact ⟨_, rfl⟩
    · simp only [hk, if_false]
      cases fetch with
      | threw e => exact ⟨_, rfl⟩
      | reply rep =>
        dsimp only
        cases hj : rep.json with
        | error e => exact ⟨_, rfl⟩
        | ok data =>
          dsimp only
          rcases geminiOnData_cases toStr data with ⟨e, he⟩ | he
          · rw [he]; exact ⟨_, rfl⟩
          · rw [he]; exact ⟨_, rfl⟩

theorem readProp_of_ne_null (data : Json) (key : String) (h : data ≠ .null) :
    readProp (some data) key = .ok (getProp data key) := by
  cases data <;> simp [readProp] at h ⊢

theorem processModel_exposes (entry : Json) (h : entry ≠ .null) :
    ∃ out, processModel entry = .ok out ∧ exposesIdentifier entry out := by
  have hgeneral : ∀ m : Json, (∀ text, m ≠ .str text) →
      (if !truthy (getProp m "name") && truthy (getProp m "model") then
          match getProp m "model" with
          | some identifier => Except.ok (Json.obj [("name", identifier)])
          | none => Except.ok m
        else Except.ok m : Except JsError Json) = processModel m →
      ∃ out, processModel m = .ok out ∧ exposesIdentifier m out := by
    intro m hnotstr heq
    rw [← heq]
    by_cases hname : truthy (getProp m "name") = true
    · refine ⟨m, by simp [hname], ?_, fun _ _ => rfl, ?_⟩
      · intro text ht
        exact absurd ht (hnotstr text)
      · intro _ hfalse
        rw [hname] at hfalse
        exact absurd hfalse (by decide)
    · have hname2 : truthy (getProp m "name") = false := by simpa using hname
      cases hmodel : getProp m "model" with
      | none =>
        refine ⟨m, ?_, ?_, fun _ _ => rfl, ?_⟩
        · simp only [hname2, hmodel]
          simp
        · intro text ht
          exact absurd ht (hnotstr text)
        · intro _ _ htrue
          rw [hmodel] at htrue
          exact absurd htrue (by decide)
      | some identifier =>
        by_cases hid : identifier.truthy = true
        · refine ⟨.obj [("name", identifier)], ?_, ?_, ?_, ?_⟩
          · simp only [hname2, hmodel]
            simp [truthy, hid]
          · intro text ht
            exact absurd ht (hnotstr text)
          · intro _ htrue
            rw [hname2] at htrue
            exact absurd htrue (by decide)
          · intro _ _ _
            rw [hmodel]
            simp [getProp, lookupKey]
        · refine ⟨m, ?_, ?_, fun _ _ => rfl, ?_⟩
          · simp only [hname2, hmodel]
            simp [truthy, hid]
          · intro text ht
            exact absurd ht (hnotstr text)
          · intro _ _ htrue
            rw [hmodel] at htrue
            simp [truthy, hid] at htrue
  cases entry with
  | null => exact absurd rfl h
  | str text =>
    refine ⟨.obj [("name", .str text)], rfl, ?_, ?_, ?_⟩
    · intro t ht
      cases ht
      simp [getProp, lookupKey]
    · intro hn
      exact absurd rfl (hn text)
    · intro hn
      exact absurd rfl (hn text)
  | bool b => exact hgeneral _ (fun _ => by simp) rfl
  | num q => exact hgeneral _ (fun _ => by simp) rfl
  | arr xs => exact hgeneral _ (fun _ => by simp) rfl
  | obj kvs => exact hgeneral _ (fun _ => by simp) rfl

theorem processedModels_exposes (models : List Json) (h : ∀ m ∈ models, m ≠ .null) :
    ∃ out, processedModels models = .ok out ∧ List.Forall₂ exposesIdentifier models out := by
  induction models with
  | nil => exact ⟨[], rfl, List.Forall₂.nil⟩
  | cons m rest ih =>
    obtain ⟨o, ho, hexp⟩ := processModel_exposes m (h m (List.mem_cons_self _ _))
    obtain ⟨os, hos, hrest⟩ := ih (fun x hx => h x (List.mem_cons_of_mem _ hx))
    exact ⟨o :: os, by simp [processedModels, ho, hos], List.Forall₂.cons hexp hrest⟩

/-! ## The claims -/

/-- C1: for every directory listing, the names of the descriptors
`scanGGUFModels` returns are, in listing order and one for one, the entries
whose lower-cased name ends with `.gguf`; the path of each descriptor is the
models directory joined with its name; and the listing `a.gguf`, `b.GGUF`,
`notes.txt` gives exactly the descriptors of `a.gguf` and `b.GGUF`. -/
theorem scanGGUFModels_listing (modelsDir : String) (listing : List String) :
    (scanGGUFModels modelsDir (.ok listing)).map (fun d => d.name)
        = listing.filter (fun f => decide (".gguf".data <:+ (toLowerCase f).data))
      ∧ (∀ d ∈ scanGGUFModels modelsDir (.ok listing), d.path = pathJoin modelsDir d.name)
      ∧ scanGGUFModels modelsDir (.ok ["a.gguf", "b.GGUF", "notes.txt"])
          = [⟨"a.gguf", pathJoin modelsDir "a.gguf"⟩, ⟨"b.GGUF", pathJoin modelsDir "b.GGUF"⟩] := by
  refine ⟨?_, ?_, ?_⟩
  · simp [scanGGUFModels, endsWith, List.map_map, Function.comp_def]
  · intro d hd
    simp only [scanGGUFModels, List.mem_map, List.mem_filter] at hd
    obtain ⟨f, _, rfl⟩ := hd
    rfl
  · have h1 : endsWith (toLowerCase "a.gguf") ".gguf" = true := by decide
    have h2 : endsWith (toLowerCase "b.GGUF") ".gguf" = true := by decide
    have h3 : endsWith (toLowerCase "notes.txt") ".gguf" = false := by decide
    simp [scanGGUFModels, List.filter, h1, h2, h3]

set_option maxRecDepth 20000 in
/-- C2, at a failing input: a request for an existing model whose body has no
`message` is answered with status 500 by the outer `catch`, and the workspace
directory made for it still exists afterwards; the same holds when the write
of the prompt file fails on a full disk. -/
theorem ggufHandler_leaks_workspace :
    ((ggufHandler demoCfg demoWorld "a.gguf" none demoFS).1.isDir
          (tempDir demoCfg.modelsDir demoWorld.now) = true
        ∧ (responses (ggufHandler demoCfg demoWorld "a.gguf" none demoFS).2).map
            (fun r => r.status) = [500])
      ∧ ((ggufHandler demoCfg fullDiskWorld "a.gguf" (some (.str "hi")) demoFS).1.isDir
          (tempDir demoCfg.modelsDir demoWorld.now) = true) := by
  decide

set_option maxRecDepth 20000 in
/-- C3, at a failing input: two requests that read the same clock value while
both are in flight are both launched, with the same command (the same prompt
file and output file in the same workspace), and the prompt file of the first
then holds the prompt of the second. -/
theorem ggufStart_same_clock_shares_workspace :
    (ggufStart demoCfg demoWorld "a.gguf" (some (.str "first prompt")) demoFS).2.2.isSome = true
      ∧ (ggufStart demoCfg demoWorld "a.gguf" (some (.str "second prompt"))
          (ggufStart demoCfg demoWorld "a.gguf" (some (.str "first prompt")) demoFS).1).2.2.isSome
          = true
      ∧ launches (ggufStart demoCfg demoWorld "a.gguf" (some (.str "second prompt"))
          (ggufStart demoCfg demoWorld "a.gguf" (some (.str "first prompt")) demoFS).1).2.1
          = launches (ggufStart demoCfg demoWorld "a.gguf" (some (.str "first prompt")) demoFS).2.1
      ∧ (ggufStart demoCfg demoWorld "a.gguf" (some (.str "second prompt"))
          (ggufStart demoCfg demoWorld "a.gguf" (some (.str "first prompt")) demoFS).1).1.content
            (promptFile (tempDir demoCfg.modelsDir demoWorld.now)) = some "second prompt" := by
  decide

/-- C4: when the primary child was launched and ended with an error, and the
output file holds a non-empty text `c` that the callback can read, the one
response of the handler is the success `{ response: c }`. -/
theorem ggufHandler_partial_output (cfg : ServerCfg) (w : GgufWorld) (modelName : String)
    (message : JsVal) (fs fs2 : FS) (ev : List Event) (modelPath text : String)
    (e : ExecError) (c : String)
    (hstart : ggufStart cfg w modelName message fs = (fs2, ev, some (modelPath, text)))
    (herr : w.primary.error = some e)
    (hfile : (applyChild fs2 (outputFile (tempDir cfg.modelsDir w.now)) w.primary).content
        (outputFile (tempDir cfg.modelsDir w.now)) = some c)
    (hread : w.faults (.read (outputFile (tempDir cfg.modelsDir w.now))) = none)
    (hc : c ≠ "") :
    responses (ggufHandler cfg w modelName message fs).2
      = [Response.json [("response", some (.str c))]] := by
  have hs := ggufStart_launched cfg w modelName message fs fs2 ev modelPath text hstart
  have hexists : (applyChild fs2 (outputFile (tempDir cfg.modelsDir w.now)) w.primary).existsSync
      (outputFile (tempDir cfg.modelsDir w.now)) = true := by
    have : (applyChild fs2 (outputFile (tempDir cfg.modelsDir w.now)) w.primary).isFile
        (outputFile (tempDir cfg.modelsDir w.now)) = true := by
      unfold FS.content at hfile
      unfold FS.isFile
      rw [List.any_eq_true]
      cases hfind : List.find? (fun e => e.1 == outputFile (tempDir cfg.modelsDir w.now))
          (applyChild fs2 (outputFile (tempDir cfg.modelsDir w.now)) w.primary).files with
      | none => rw [hfind] at hfile; simp at hfile
      | some x => exact ⟨x, List.mem_of_find?_eq_some hfind, by simpa using List.find?_some hfind⟩
    simp [FS.existsSync, this]
  have hr : readResponse w.faults (applyChild fs2 (outputFile (tempDir cfg.modelsDir w.now)) w.primary)
      (outputFile (tempDir cfg.modelsDir w.now))
      = (c, [.fsCall (.read (outputFile (tempDir cfg.modelsDir w.now)))]) := by
    simp [readResponse, hexists, readFileSync, hread, hfile]
  simp only [ggufHandler, hstart, primaryCallback, hr, responses_append, hs.1,
    (cleanup_events _ _ _ _ _).1, afterCleanup, herr, List.nil_append]
  simp [responses, hc]

/-- C4 at a child killed at the deadline after writing `partial answer`. -/
theorem ggufHandler_partial_output_witness :
    responses (ggufHandler demoCfg killedWorld "a.gguf" (some (.str "hi")) demoFS).2
      = [Response.json [("response", some (.str "partial answer"))]] :=
  ggufHandler_partial_output demoCfg killedWorld "a.gguf" (some (.str "hi")) demoFS _ _ _ _
    { message := "Command failed", killed := true, signal := some "SIGTERM" } "partial answer"
    rfl rfl rfl rfl (by decide)

set_option maxRecDepth 20000 in
/-- C5, at a failing input: for a prompt that holds a NUL byte, when the
primary child exits without error and no output is read, `exec` throws on the
fallback command, into which the prompt is inlined, and no fallback is
launched: the primary child is the only one launched. -/
theorem ggufHandler_nul_prompt_launches :
    silentWorld.primary.error = none
      ∧ outputRead demoCfg silentWorld
          (ggufStart demoCfg silentWorld "a.gguf" (some (.str "a\x00b")) demoFS).1 = ""
      ∧ (execThrows silentWorld
          (fallbackCommand "llama-main" "/srv/models/a.gguf" "a\x00b")).isSome = true
      ∧ launches (ggufHandler demoCfg silentWorld "a.gguf" (some (.str "a\x00b")) demoFS).2
        = [(command "llama-main" "/srv/models/a.gguf"
              (promptFile (tempDir "/srv/models" 1700000000000))
              (outputFile (tempDir "/srv/models" 1700000000000)), 60000)] := by
  decide

set_option maxRecDepth 20000 in
/-- C6, at a failing input: the fallback command carries the prompt text, so
two prompts give two fallback commands, two requests that differ only in
their prompt launch different commands, and a prompt with a double quote
ends the quoted argument and continues the shell command. -/
theorem fallbackCommand_inlines_prompt :
    fallbackCommand "llama-main" "/srv/models/a.gguf" "hello"
        ≠ fallbackCommand "llama-main" "/srv/models/a.gguf" "goodbye"
      ∧ launches (ggufHandler demoCfg silentWorld "a.gguf" (some (.str "hello")) demoFS).2
        ≠ launches (ggufHandler demoCfg silentWorld "a.gguf" (some (.str "goodbye")) demoFS).2
      ∧ fallbackCommand "llama-main" "/srv/models/a.gguf" "x\"; touch /tmp/pwned; \""
        = "llama-main -m /srv/models/a.gguf -p \"x\"; touch /tmp/pwned; \"\" -n 256" := by
  decide

/-- C7: with the catalog of any scan, for a model name that no descriptor
has, or that a descriptor has whose file does not exist, the handler answers
404 with an `error` member, leaves the file system as it was, and makes no
call of the `fs` module that creates or writes anything and no child launch:
its only event is the response. -/
theorem ggufHandler_model_not_found (modelsDir llamaPath : String)
    (readdir : Except JsError (List String)) (w : GgufWorld) (modelName : String)
    (message : JsVal) (fs : FS)
    (h : (∀ m ∈ scanGGUFModels modelsDir readdir, m.name ≠ modelName) ∨
      (∃ m ∈ scanGGUFModels modelsDir readdir, m.name = modelName ∧ fs.existsSync m.path = false)) :
    ∃ r, ggufHandler ⟨modelsDir, llamaPath, scanGGUFModels modelsDir readdir⟩ w modelName message fs
          = (fs, [.respond r])
      ∧ r.status = 404 ∧ (r.field "error").isSome = true
      ∧ fsCalls (ggufHandler ⟨modelsDir, llamaPath, scanGGUFModels modelsDir readdir⟩ w modelName
          message fs).2 = []
      ∧ launches (ggufHandler ⟨modelsDir, llamaPath, scanGGUFModels modelsDir readdir⟩ w modelName
          message fs).2 = [] := by
  have hpath : ∀ m ∈ scanGGUFModels modelsDir readdir, m.path = pathJoin modelsDir m.name := by
    intro m hm
    cases readdir with
    | error e => simp [scanGGUFModels] at hm
    | ok listing =>
      simp only [scanGGUFModels, List.mem_map, List.mem_filter] at hm
      obtain ⟨f, _, rfl⟩ := hm
      rfl
  cases hfind : (scanGGUFModels modelsDir readdir).find? (fun m => m.name == modelName) with
  | none =>
    refine ⟨modelNotInCatalog modelName, ?_, ?_⟩
    · simp only [ggufHandler, ggufStart, hfind]
    · simp [modelNotInCatalog, Response.statusJson, Response.field, jsonBody, lookupKey, fsCalls,
        launches, ggufHandler, ggufStart, hfind]
  | some model =>
    have hmem := List.mem_of_find?_eq_some hfind
    have hname : model.name = modelName := by simpa using List.find?_some hfind
    have hmissing : fs.existsSync model.path = false := by
      rcases h with h | ⟨m, hm, hmn, hme⟩
      · exact absurd hname (h model hmem)
      · rw [hpath model hmem, hname, ← hmn, ← hpath m hm]
        exact hme
    refine ⟨modelFileMissing modelName model.path, ?_, ?_⟩
    · simp only [ggufHandler, ggufStart, hfind, hmissing]
      rfl
    · simp [modelFileMissing, Response.statusJson, Response.field, jsonBody, lookupKey, fsCalls,
        launches, ggufHandler, ggufStart, hfind, hmissing]

/-- C7 at the name `b.gguf`, which the catalog of the demo server lacks. -/
theorem ggufHandler_model_not_found_witness :
    ∃ r, ggufHandler ⟨"/srv/models", "llama-main", scanGGUFModels "/srv/models" (.ok ["a.gguf", "notes.txt"])⟩
            demoWorld "b.gguf" (some (.str "hi")) demoFS = (demoFS, [.respond r])
      ∧ r.status = 404 ∧ (r.field "error").isSome = true
      ∧ fsCalls (ggufHandler ⟨"/srv/models", "llama-main",
          scanGGUFModels "/srv/models" (.ok ["a.gguf", "notes.txt"])⟩
            demoWorld "b.gguf" (some (.str "hi")) demoFS).2 = []
      ∧ launches (ggufHandler ⟨"/srv/models", "llama-main",
          scanGGUFModels "/srv/models" (.ok ["a.gguf", "notes.txt"])⟩
            demoWorld "b.gguf" (some (.str "hi")) demoFS).2 = [] :=
  ggufHandler_model_not_found "/srv/models" "llama-main" (.ok ["a.gguf", "notes.txt"]) demoWorld
    "b.gguf" (some (.str "hi")) demoFS (Or.inl (by decide))

/-- C8: for every model identifier and every message the body carries, if
the liveness probe throws or answers with a non-OK status, the handler issues
the probe and nothing else, and answers 503 with the guidance to run
`ollama serve`; the generation call is not issued. -/
theorem ollamaHandler_daemon_down (w : OllamaWorld) (model : String) (message : Json)
    (hmessage : message ≠ .null)
    (hdown : (∃ e, w.version = .threw e) ∨ (∃ r, w.version = .reply r ∧ r.ok = false)) :
    ∃ r, ollamaHandler w model (some message)
          = [.netCall "GET" ollamaVersionUrl none, .respond r]
      ∧ r.status = 503
      ∧ r.field "details" = some (.str "To start Ollama, run this in your terminal: ollama serve")
      ∧ ("POST", ollamaGenerateUrl) ∉ netCalls (ollamaHandler w model (some message)) := by
  have hread : ∃ v, readProp (some message) "length" = .ok v := by
    cases message <;> simp [readProp] at hmessage ⊢
  obtain ⟨v, hv⟩ := hread
  have hprobe : ∃ e, ollamaProbe w.version = some e := by
    rcases hdown with ⟨e, he⟩ | ⟨r, hr, hok⟩
    · exact ⟨e, by simp [ollamaProbe, he]⟩
    · exact ⟨_, by simp [ollamaProbe, hr, hok]; rfl⟩
  obtain ⟨e, he⟩ := hprobe
  refine ⟨ollamaUnavailable e, ?_, ?_, ?_, ?_⟩
  · simp [ollamaHandler, hv, he]
  · rfl
  · simp [ollamaUnavailable, Response.statusJson, Response.field, jsonBody, lookupKey]
  · simp [ollamaHandler, hv, he, netCalls, ollamaGenerateUrl]

/-- C8 at a daemon that refuses the connection. -/
theorem ollamaHandler_daemon_down_witness :
    ∃ r, ollamaHandler downWorld "llama3" (some (.str "hi"))
          = [.netCall "GET" ollamaVersionUrl none, .respond r]
      ∧ r.status = 503
      ∧ r.field "details" = some (.str "To start Ollama, run this in your terminal: ollama serve")
      ∧ ("POST", ollamaGenerateUrl) ∉ netCalls (ollamaHandler downWorld "llama3" (some (.str "hi"))) :=
  ollamaHandler_daemon_down downWorld "llama3" (.str "hi") (by simp) (Or.inl ⟨_, rfl⟩)

/-- C9: when `GEMINI_API_KEY` is unset, empty or the placeholder, the handler
answers with the one simulated-response text, whatever the message and
whatever the network would answer, and issues no network call. -/
theorem geminiHandler_no_credential (apiKey : Option String) (toStr : Json → String)
    (fetch : FetchResult) (message : JsVal)
    (h : apiKey = none ∨ apiKey = some "" ∨ apiKey = some "your_gemini_api_key") :
    geminiHandler apiKey toStr fetch message
        = [.respond (Response.json [("response", some (.str simulatedResponse))])]
      ∧ netCalls (geminiHandler apiKey toStr fetch message) = [] := by
  rcases h with rfl | rfl | rfl <;> simp [geminiHandler, netCalls]

/-- C9 at the placeholder key. -/
theorem geminiHandler_no_credential_witness :
    geminiHandler (some "your_gemini_api_key") demoToStr
          (.threw { name := "FetchError", message := "network is down" }) (some (.str "hi"))
        = [.respond (Response.json [("response", some (.str simulatedResponse))])]
      ∧ netCalls (geminiHandler (some "your_gemini_api_key") demoToStr
          (.threw { name := "FetchError", message := "network is down" }) (some (.str "hi"))) = [] :=
  geminiHandler_no_credential (some "your_gemini_api_key") demoToStr _ _ (Or.inr (Or.inr rfl))

/-- C10 as stated fails: for the payload `{}`, which has no `error` member
and no `candidates[0].content.parts[0]`, the handler answers with status 200
and a `response` text, not with a failure. -/
theorem geminiHandler_unparsed_is_success :
    getProp (.obj []) "error" = none
      ∧ getPath (some (.obj [])) geminiTextPath = none
      ∧ responses (geminiHandler (some "a-real-key") demoToStr
            (.reply { ok := true, status := 200, json := .ok (.obj []) }) (some (.str "hi")))
          = [Response.json [("response", some (.str unparsedResponse))]]
      ∧ (Response.json [("response", some (.str unparsedResponse))]).ok = true
      ∧ (Response.json [("response", some (.str unparsedResponse))]).field "error" = none := by
  refine ⟨rfl, rfl, ?_, by decide, rfl⟩
  simp [geminiHandler, geminiOnData, readProp, getProp, lookupKey, geminiExtract, responses]

/-- C10 as amended: for a vendor payload without a truthy `error` member
and without a value at `candidates[0].content.parts[0]`, the handler sends
exactly one response and throws nothing past it: status 200 with the fixed
text `unparsedResponse` when the payload is not `null`, and status 500 with
the message of the `TypeError` when the payload is `null`. -/
theorem geminiHandler_unexpected_shape (key : String) (toStr : Json → String) (r : HttpReply)
    (message : JsVal) (data : Json)
    (hkey : key ≠ "" ∧ key ≠ "your_gemini_api_key")
    (hjson : r.json = .ok data)
    (herror : truthy (getProp data "error") = false)
    (habsent : getPath (some data) geminiTextPath = none) :
    (data ≠ .null →
        responses (geminiHandler (some key) toStr (.reply r) message)
          = [Response.json [("response", some (.str unparsedResponse))]])
      ∧ (data = .null →
        responses (geminiHandler (some key) toStr (.reply r) message)
          = [Response.statusJson 500
              [("error", some (.str "Cannot read properties of null (reading \x27error\x27)"))]]) := by
  refine ⟨?_, ?_⟩
  · intro hnn
    have hread : readProp (some data) "error" = .ok (getProp data "error") := by
      cases data <;> simp [readProp] at hnn ⊢
    have hstep : getPath (getProp data "candidates") ["0", "content", "parts", "0"] = none := by
      cases data <;>
        first
        | exact absurd rfl hnn
        | exact habsent
    have hx := geminiExtract_absent data hstep
    simp only [geminiHandler, hkey.1, hkey.2, or_self, if_false, hjson, geminiOnData, hread]
    cases herr : getProp data "error" with
    | none => simp [responses, hx]
    | some v =>
      rw [herr] at herror
      simp only [truthy] at herror
      simp [herror, responses, hx]
  · rintro rfl
    simp [geminiHandler, hkey.1, hkey.2, hjson, geminiOnData, readProp, geminiCatch, responses,
      typeErrorRead]

/-- C10 as amended, at the payload `{ candidates: [] }`. -/
theorem geminiHandler_unexpected_shape_witness :
    responses (geminiHandler (some "a-real-key") demoToStr
        (.reply { ok := true, status := 200, json := .ok (.obj [("candidates", .arr [])]) })
        (some (.str "hi")))
      = [Response.json [("response", some (.str unparsedResponse))]] :=
  (geminiHandler_unexpected_shape "a-real-key" demoToStr
    { ok := true, status := 200, json := .ok (.obj [("candidates", .arr [])]) }
    (some (.str "hi")) (.obj [("candidates", .arr [])]) ⟨by decide, by decide⟩ rfl rfl rfl).1
    (by simp)

/-- C11 as stated fails: a vendor answer with the non-success status 503
whose payload has a text at `candidates[0].content.parts[0]` and no `error`
member is answered with status 200 and that text, a success. -/
theorem geminiHandler_ignores_status :
    responses (geminiHandler (some "a-real-key") demoToStr
        (.reply { ok := false, status := 503,
                  json := .ok (.obj [("candidates", .arr [.obj [("content",
                    .obj [("parts", .arr [.obj [("text", .str "hi there")]])])]])]) })
        (some (.str "hi")))
      = [Response.json [("response", some (.str "hi there"))]]
      ∧ (Response.json [("response", some (.str "hi there"))]).ok = true := by
  refine ⟨?_, by decide⟩
  simp [geminiHandler, geminiOnData, readProp, getProp, lookupKey, geminiExtract, responses,
    Json.truthy]

/-- C11 as amended: for a call made with a credential whose payload has a
truthy `error` member, the one response is the failure with status 500 whose
`error` is the `message` of the vendor error when that is truthy and the text
`Error from Gemini API` otherwise; and the HTTP status of the vendor answer is
not examined: changing `ok` and `status` of the answer changes nothing. -/
theorem geminiHandler_vendor_error (key : String) (toStr : Json → String) (r : HttpReply)
    (message : JsVal) (data errVal : Json)
    (hkey : key ≠ "" ∧ key ≠ "your_gemini_api_key")
    (hjson : r.json = .ok data)
    (herror : getProp data "error" = some errVal)
    (htruthy : errVal.truthy = true) :
    responses (geminiHandler (some key) toStr (.reply r) message)
        = [Response.statusJson 500
            [("error", some (.str
              (match getProp errVal "message" with
               | some m => if m.truthy then asString toStr m else "Error from Gemini API"
               | none => "Error from Gemini API")))]]
      ∧ ∀ ok status,
          geminiHandler (some key) toStr (.reply { r with ok := ok, status := status }) message
            = geminiHandler (some key) toStr (.reply r) message := by
  refine ⟨?_, ?_⟩
  · have hread : readProp (some data) "error" = .ok (some errVal) := by
      cases data <;> simp_all [readProp, getProp]
    simp only [geminiHandler, hkey.1, hkey.2, or_self, if_false, hjson, geminiOnData, hread,
      htruthy, if_true]
    cases hm : getProp errVal "message" with
    | none => simp [responses, geminiCatch, newError]
    | some m =>
      by_cases ht : m.truthy = true <;> simp [ht, responses, geminiCatch, newError]
  · intro ok status
    simp [geminiHandler]

/-- C11 as amended, at a status 400 with the vendor error `API key not valid`. -/
theorem geminiHandler_vendor_error_witness :
    responses (geminiHandler (some "a-real-key") demoToStr
        (.reply { ok := false, status := 400,
                  json := .ok (.obj [("error", .obj [("message", .str "API key not valid")])]) })
        (some (.str "hi")))
      = [Response.statusJson 500 [("error", some (.str "API key not valid"))]] :=
  (geminiHandler_vendor_error "a-real-key" demoToStr
    { ok := false, status := 400,
      json := .ok (.obj [("error", .obj [("message", .str "API key not valid")])]) }
    (some (.str "hi")) (.obj [("error", .obj [("message", .str "API key not valid")])])
    (.obj [("message", .str "API key not valid")]) ⟨by decide, by decide⟩ rfl rfl rfl).1

set_option maxRecDepth 20000 in
/-- C12 as stated fails: for the requested identifier `DeepSeek-R1` and a
daemon answering `model not found`, the 404 response names
`deepseek-coder:1.5b` in its error and in its pull suggestion, and the
requested identifier occurs in neither. -/
theorem ollamaHandler_not_found_names_substitute :
    responses (ollamaHandler missingModelWorld "DeepSeek-R1" (some (.str "hi")))
        = [Response.statusJson 404
            [("error", some (.str "Model \"deepseek-coder:1.5b\" not found in your Ollama installation")),
             ("message", some (.str "Try pulling the model first with: ollama pull deepseek-coder:1.5b"))]]
      ∧ includes "Model \"deepseek-coder:1.5b\" not found in your Ollama installation" "DeepSeek-R1"
          = false
      ∧ includes "Try pulling the model first with: ollama pull deepseek-coder:1.5b" "DeepSeek-R1"
          = false := by
  have hactual : actualModel "DeepSeek-R1" = "deepseek-coder:1.5b" := by decide
  have hincl : includes "model not found" "model not found" = true := by decide
  refine ⟨?_, by decide, by decide⟩
  simp [ollamaHandler, missingModelWorld, readProp, getProp, ollamaProbe, lookupKey, ollamaNotOk,
    Json.truthy, hincl, hactual, ollamaModelNotFound, responses]

/-- C12 as amended: every failure response of the Ollama handler is the 503
of a failed probe, or the generic 500, whose `error` names the identifier the
caller requested, or the 404, whose `error` and pull suggestion name the
identifier sent to the daemon, `actualModel model`; that is the requested
identifier whenever its lower-cased form does not contain `deepseek`. -/
theorem ollamaHandler_failure_names (w : OllamaWorld) (model : String) (message : JsVal)
    (r : Response) (hr : r ∈ responses (ollamaHandler w model message)) (hfail : r.ok = false) :
    ((r.status = 503 ∧ r.field "error" = some (.str "Ollama server not running or not reachable"))
        ∨ (r.status = 500 ∧ r.field "error"
            = some (.str ("Failed to generate response from Ollama model \"" ++ model ++ "\"")))
        ∨ (r.status = 404
            ∧ r.field "error" = some (.str
                ("Model \"" ++ actualModel model ++ "\" not found in your Ollama installation"))
            ∧ r.field "message" = some (.str
                ("Try pulling the model first with: ollama pull " ++ actualModel model))))
      ∧ (includes (toLowerCase model) "deepseek" = false → actualModel model = model) := by
  refine ⟨?_, ?_⟩
  · rcases ollamaHandler_responses w model message r hr with ⟨e, rfl⟩ | ⟨e, he⟩ | he | ⟨v, rfl⟩
    · exact Or.inl ⟨rfl, by simp [ollamaUnavailable, Response.statusJson, Response.field, jsonBody,
        lookupKey]⟩
    · simp only [ollamaCatch, Event.respond.injEq] at he
      subst he
      exact Or.inr (Or.inl ⟨rfl, by simp [Response.statusJson, Response.field, jsonBody, lookupKey]⟩)
    · simp only [ollamaModelNotFound, Event.respond.injEq] at he
      subst he
      exact Or.inr (Or.inr ⟨rfl, by simp [Response.statusJson, Response.field, jsonBody, lookupKey],
        by simp [Response.statusJson, Response.field, jsonBody, lookupKey]⟩)
    · simp [Response.ok, Response.json] at hfail
  · intro h
    simp [actualModel, h]

set_option maxRecDepth 20000 in
/-- C12 as amended, at the 404 for the identifier `llama3`. -/
theorem ollamaHandler_failure_names_witness :
    ((llama3NotFound.status = 503
          ∧ llama3NotFound.field "error" = some (.str "Ollama server not running or not reachable"))
        ∨ (llama3NotFound.status = 500
          ∧ llama3NotFound.field "error"
              = some (.str ("Failed to generate response from Ollama model \"" ++ "llama3" ++ "\"")))
        ∨ (llama3NotFound.status = 404
            ∧ llama3NotFound.field "error" = some (.str
                ("Model \"" ++ actualModel "llama3" ++ "\" not found in your Ollama installation"))
            ∧ llama3NotFound.field "message" = some (.str
                ("Try pulling the model first with: ollama pull " ++ actualModel "llama3"))))
      ∧ (includes (toLowerCase "llama3") "deepseek" = false → actualModel "llama3" = "llama3") :=
  ollamaHandler_failure_names missingModelWorld "llama3" (some (.str "hi")) llama3NotFound
    (by
      have hactual : actualModel "llama3" = "llama3" := by decide
      have hincl : includes "model not found" "model not found" = true := by decide
      simp [ollamaHandler, missingModelWorld, readProp, getProp, ollamaProbe, lookupKey,
        ollamaNotOk, Json.truthy, hincl, hactual, ollamaModelNotFound, responses, llama3NotFound])
    (by decide)

/-- C13: for every non-OK answer to the generation call (the probe having
succeeded, the body carrying a message), the handler sends exactly one
response, which is never a success and has status 404 or 500; when the
extracted error text is a string, the status is 404 exactly when that text
contains `model not found`; when nothing is extracted the status is 500; and
a 404 carries the suggestion to pull the model.  For an `error` member that
is not a text: an array gives 404 exactly when one of its elements is the
string `model not found`, any other value gives 500. -/
theorem ollamaHandler_generation_not_ok (w : OllamaWorld) (model : String) (message : Json)
    (r : HttpReply) (hmessage : message ≠ .null) (hprobe : ollamaProbe w.version = none)
    (hgen : w.generate = .reply r) (hnotok : r.ok = false) :
    ∃ resp, responses (ollamaHandler w model (some message)) = [resp]
      ∧ resp.ok = false
      ∧ (resp.status = 404 ∨ resp.status = 500)
      ∧ (∀ text, ollamaErrorText r = some (.str text) →
          (resp.status = 404 ↔ includes text "model not found" = true))
      ∧ (ollamaErrorText r = none → resp.status = 500)
      ∧ (resp.status = 404 → resp.field "message" = some (.str
          ("Try pulling the model first with: ollama pull " ++ actualModel model)))
      ∧ (∀ items, ollamaErrorText r = some (.arr items) →
          (resp.status = 404 ↔ ∃ item ∈ items, item = .str "model not found"))
      ∧ (∀ v, ollamaErrorText r = some v → (∀ text, v ≠ .str text) → (∀ items, v ≠ .arr items) →
          resp.status = 500) := by
  have hev := ollamaHandler_not_ok w model message r hmessage hprobe hgen hnotok
  have h404 : (Response.statusJson 404
      [("error", some (.str ("Model \"" ++ actualModel model ++ "\" not found in your Ollama installation"))),
       ("message", some (.str ("Try pulling the model first with: ollama pull " ++ actualModel model)))]).status
      = 404 := rfl
  rcases ollamaNotOk_cases w.toStr model r with ⟨e, he⟩ | he
  · refine ⟨Response.statusJson 500
      [("error", some (.str ("Failed to generate response from Ollama model \"" ++ model ++ "\""))),
       ("message", some (.str e.message))], ?_, rfl, Or.inr rfl, ?_, fun _ => rfl, ?_, ?_,
       fun _ _ _ _ => rfl⟩
    · rw [hev, he]; rfl
    · intro text htext
      have h := ollamaNotOk_of_value w.toStr model r _ htext
      rw [he] at h
      by_cases hi : includes text "model not found" = true
      · simp [hi, ollamaCatch, ollamaModelNotFound, Response.statusJson] at h
      · simp [hi, Response.statusJson]
    · intro h
      simp [Response.statusJson] at h
    · intro items hitems
      have h := ollamaNotOk_of_value w.toStr model r _ hitems
      rw [he] at h
      rw [← any_is_phrase]
      by_cases hi : items.any (fun item => match item with
          | .str text => text == "model not found"
          | _ => false) = true
      · simp [hi, ollamaCatch, ollamaModelNotFound, Response.statusJson] at h
      · simp [hi, Response.statusJson]
  · refine ⟨Response.statusJson 404
      [("error", some (.str ("Model \"" ++ actualModel model ++ "\" not found in your Ollama installation"))),
       ("message", some (.str ("Try pulling the model first with: ollama pull " ++ actualModel model)))],
      ?_, rfl, Or.inl rfl, ?_, ?_, ?_, ?_, ?_⟩
    · rw [hev, he]; rfl
    · intro text htext
      have h := ollamaNotOk_of_value w.toStr model r _ htext
      rw [he] at h
      by_cases hi : includes text "model not found" = true
      · simp [hi, Response.statusJson]
      · simp [hi, ollamaCatch, ollamaModelNotFound, Response.statusJson] at h
    · intro hnone
      have h := ollamaNotOk_of_none w.toStr model r hnone
      rw [he] at h
      simp [ollamaCatch, ollamaModelNotFound, Response.statusJson] at h
    · intro _
      simp [Response.statusJson, Response.field, jsonBody, lookupKey]
    · intro items hitems
      have h := ollamaNotOk_of_value w.toStr model r _ hitems
      rw [he] at h
      rw [← any_is_phrase]
      by_cases hi : items.any (fun item => match item with
          | .str text => text == "model not found"
          | _ => false) = true
      · simp [hi, Response.statusJson]
      · simp [hi, ollamaCatch, ollamaModelNotFound, Response.statusJson] at h
    · intro v hv hnstr hnarr
      have h := ollamaNotOk_of_value w.toStr model r _ hv
      rw [he] at h
      cases v with
      | str text => exact absurd rfl (hnstr text)
      | arr items => exact absurd rfl (hnarr items)
      | null => simp [ollamaCatch, ollamaModelNotFound, Response.statusJson] at h
      | bool b => simp [ollamaCatch, ollamaModelNotFound, Response.statusJson] at h
      | num q => simp [ollamaCatch, ollamaModelNotFound, Response.statusJson] at h
      | obj kvs => simp [ollamaCatch, ollamaModelNotFound, Response.statusJson] at h

set_option maxRecDepth 20000 in
/-- C13 at a daemon that answers `model not found` for `llama3`: the one
response has status 404. -/
theorem ollamaHandler_generation_not_ok_witness :
    ∃ resp, responses (ollamaHandler missingModelWorld "llama3" (some (.str "hi"))) = [resp]
      ∧ resp.ok = false ∧ resp.status = 404 := by
  obtain ⟨resp, h1, h2, _, h4, _⟩ :=
    ollamaHandler_generation_not_ok missingModelWorld "llama3" (.str "hi")
      { ok := false, status := 404, json := .ok (.obj [("error", .str "model not found")]) }
      (by simp) (by simp [missingModelWorld, ollamaProbe, readProp, getProp]) rfl rfl
  exact ⟨resp, h1, h2, (h4 "model not found" (by simp [ollamaErrorText, readProp, getProp,
    lookupKey, Json.truthy])).mpr (by decide)⟩

/-- C14: when the primary child was launched and ended with an error, and no
text was read from the output file, the one response is the GPU failure
exactly when the error stream contains `CUDA`, and otherwise the generic
failure whose message is the error stream when that is non-empty, else the
message of the error when that is non-empty, else `Unknown error`. -/
theorem ggufHandler_error_heuristics (cfg : ServerCfg) (w : GgufWorld) (modelName : String)
    (message : JsVal) (fs fs2 : FS) (ev : List Event) (modelPath text : String) (e : ExecError)
    (hstart : ggufStart cfg w modelName message fs = (fs2, ev, some (modelPath, text)))
    (herr : w.primary.error = some e)
    (hout : outputRead cfg w fs2 = "") :
    responses (ggufHandler cfg w modelName message fs).2
      = [if includes w.primary.stderr "CUDA" then gpuFailure
         else processFailure cfg.llamaPath
           (if w.primary.stderr ≠ "" then w.primary.stderr
            else if e.message ≠ "" then e.message
            else "Unknown error")] := by
  have hh := ggufHandler_launched cfg w modelName message fs fs2 ev modelPath text hstart
  rw [hh.1, hout]
  simp only [afterCleanup, herr, ne_eq, not_true_eq_false, if_false]
  by_cases hcuda : includes w.primary.stderr "CUDA" = true
  · have hne : w.primary.stderr ≠ "" := by
      intro hempty
      rw [hempty] at hcuda
      revert hcuda
      decide
    simp [hcuda, hne, responses]
  · simp [hcuda, responses]

/-- C14 at a primary child that fails with `CUDA error: out of memory` on its
error stream: the GPU failure. -/
theorem ggufHandler_error_heuristics_witness :
    responses (ggufHandler demoCfg cudaWorld "a.gguf" (some (.str "hi")) demoFS).2
      = [gpuFailure] := by
  have h := ggufHandler_error_heuristics demoCfg cudaWorld "a.gguf" (some (.str "hi")) demoFS
    _ _ _ _ { message := "Command failed", code := some 1 } rfl rfl rfl
  have hcuda : includes cudaWorld.primary.stderr "CUDA" = true := by decide
  rw [h, if_pos hcuda]

/-- C15: whenever the fallback child is launched, the one response is
determined by the fallback run alone: the failure with status 500 whose
`details` is the message of the fallback error when there is one, and
otherwise the success whose text is the standard output of the fallback; and
the launches are the primary and the fallback, nothing after. -/
theorem ggufHandler_fallback_result (cfg : ServerCfg) (w : GgufWorld) (modelName : String)
    (message : JsVal) (fs fs2 : FS) (ev : List Event) (modelPath text : String)
    (hstart : ggufStart cfg w modelName message fs = (fs2, ev, some (modelPath, text)))
    (hran : (fallbackCommand cfg.llamaPath modelPath text, 30000)
      ∈ launches (ggufHandler cfg w modelName message fs).2) :
    responses (ggufHandler cfg w modelName message fs).2
        = [match w.fallback.error with
           | some fallbackError =>
             Response.statusJson 500
               [("error", some (.str "Failed to generate response with llama.cpp")),
                ("message", some (.str "Both standard and fallback commands failed")),
                ("details", some (.str fallbackError.message))]
           | none => Response.json [("response", some (.str w.fallback.stdout))]]
      ∧ launches (ggufHandler cfg w modelName message fs).2
        = [(command cfg.llamaPath modelPath (promptFile (tempDir cfg.modelsDir w.now))
              (outputFile (tempDir cfg.modelsDir w.now)), 60000),
           (fallbackCommand cfg.llamaPath modelPath text, 30000)] := by
  have hh := ggufHandler_launched cfg w modelName message fs fs2 ev modelPath text hstart
  rw [hh.2] at hran
  rw [hh.1, hh.2]
  unfold afterCleanup at hran ⊢
  cases herr : w.primary.error with
  | some e =>
    simp only [herr] at hran
    exfalso
    split at hran
    · simp [launches] at hran
    · split at hran <;> simp [launches] at hran
  | none =>
    simp only [herr] at hran ⊢
    by_cases hout : outputRead cfg w fs2 = ""
    · simp only [hout, if_true] at hran ⊢
      cases hx : execThrows w (fallbackCommand cfg.llamaPath modelPath text) with
      | some e => simp [hx, launches] at hran
      | none =>
        simp only [hx]
        refine ⟨?_, rfl⟩
        cases hfb : w.fallback.error <;> simp [responses, fallbackCallback, hfb]
    · simp [hout, launches] at hran

/-- C15 at a clean primary run without output followed by a fallback that
fails. -/
theorem ggufHandler_fallback_result_witness :
    responses (ggufHandler demoCfg bothFailWorld "a.gguf" (some (.str "hi")) demoFS).2
        = [Response.statusJson 500
             [("error", some (.str "Failed to generate response with llama.cpp")),
              ("message", some (.str "Both standard and fallback commands failed")),
              ("details", some (.str "Command failed: llama-main"))]]
      ∧ launches (ggufHandler demoCfg bothFailWorld "a.gguf" (some (.str "hi")) demoFS).2
        = [(command "llama-main" "/srv/models/a.gguf"
              (promptFile (tempDir "/srv/models" 1700000000000))
              (outputFile (tempDir "/srv/models" 1700000000000)), 60000),
           (fallbackCommand "llama-main" "/srv/models/a.gguf" "hi", 30000)] :=
  ggufHandler_fallback_result demoCfg bothFailWorld "a.gguf" (some (.str "hi")) demoFS _ _
    "/srv/models/a.gguf" "hi" rfl (by
      have h : launches (ggufHandler demoCfg bothFailWorld "a.gguf" (some (.str "hi")) demoFS).2
          = [(command "llama-main" "/srv/models/a.gguf"
                (promptFile (tempDir "/srv/models" 1700000000000))
                (outputFile (tempDir "/srv/models" 1700000000000)), 60000),
             (fallbackCommand "llama-main" "/srv/models/a.gguf" "hi", 30000)] := rfl
      rw [h]
      exact List.mem_cons_of_mem _ (List.mem_singleton.mpr rfl))

/-- C16, at a failing input: for a body without a `message` member, the
Ollama handler and the test handler throw a `TypeError` outside any `try`
(reading `length`, calling `toLowerCase`), whatever the model and the world:
the error escapes the handler and no response is sent.  The GGUF handler and
the Gemini handler send exactly one response for such a body. -/
theorem handlers_throw_without_message :
    (∀ (w : OllamaWorld) (model : String),
        ollamaHandler w model none = [.uncaught (typeErrorRead "undefined" "length")]
          ∧ responses (ollamaHandler w model none) = [])
      ∧ (∀ pick : Fin 4,
        testHandler none pick = [.uncaught (typeErrorRead "undefined" "toLowerCase")]
          ∧ responses (testHandler none pick) = [])
      ∧ (typeErrorRead "undefined" "length").message
          = "Cannot read properties of undefined (reading \x27length\x27)"
      ∧ (∀ (cfg : ServerCfg) (w : GgufWorld) (modelName : String) (fs : FS),
          ∃ r, responses (ggufHandler cfg w modelName none fs).2 = [r])
      ∧ (∀ (apiKey : Option String) (toStr : Json → String) (fetch : FetchResult),
          ∃ r, responses (geminiHandler apiKey toStr fetch none) = [r]) := by
  refine ⟨fun w model => ⟨rfl, rfl⟩, fun pick => ⟨rfl, rfl⟩, by decide, ?_, ?_⟩
  · intro cfg w modelName fs
    have hl := ggufStart_without_text cfg w modelName fs
    obtain ⟨r, hr, _⟩ := ggufStart_refused cfg w modelName none fs hl
    exact ⟨r, by simp only [ggufHandler, hl]; exact hr⟩
  · intro apiKey toStr fetch
    exact geminiHandler_one_response apiKey toStr fetch none

/-- C17 as stated fails: the failure the Gemini handler sends when the call to
the vendor throws has status 500 and an `error` member, and no `message`
member. -/
theorem geminiHandler_failure_without_hint :
    responses (geminiHandler (some "a-real-key") demoToStr
        (.threw { name := "FetchError", message := "network is down" }) (some (.str "hi")))
        = [Response.statusJson 500 [("error", some (.str "network is down"))]]
      ∧ (Response.statusJson 500 [("error", some (.str "network is down"))]).ok = false
      ∧ (Response.statusJson 500 [("error", some (.str "network is down"))]).field "message"
          = none := by
  refine ⟨?_, by decide, rfl⟩
  simp [geminiHandler, geminiCatch, responses]

/-- C17 as amended: every failure response of the GGUF handler and of the
Ollama handler carries an `error` member and a `message` member; every
failure response of the Gemini handler has status 500 and carries an `error`
member and no `message` member. -/
theorem failure_responses_members :
    (∀ (cfg : ServerCfg) (w : GgufWorld) (modelName : String) (message : JsVal) (fs : FS)
        (r : Response), r ∈ responses (ggufHandler cfg w modelName message fs).2 → r.ok = false →
          (r.field "error").isSome = true ∧ (r.field "message").isSome = true)
      ∧ (∀ (w : OllamaWorld) (model : String) (message : JsVal) (r : Response),
          r ∈ responses (ollamaHandler w model message) → r.ok = false →
            (r.field "error").isSome = true ∧ (r.field "message").isSome = true)
      ∧ (∀ (apiKey : Option String) (toStr : Json → String) (fetch : FetchResult)
          (message : JsVal) (r : Response),
          r ∈ responses (geminiHandler apiKey toStr fetch message) → r.ok = false →
            r.status = 500 ∧ (r.field "error").isSome = true ∧ r.field "message" = none) := by
  refine ⟨?_, ?_, ?_⟩
  · intro cfg w modelName message fs r hr hfail
    rcases ggufHandler_response cfg w modelName message fs with hnone | ⟨r0, h0, hcase⟩
    · rw [hnone] at hr
      cases hr
    rw [h0, List.mem_singleton] at hr
    subst hr
    rcases hcase with h | ⟨p, h⟩ | ⟨e, h⟩ | ⟨text, _, h⟩ | h | ⟨d, h⟩ | h
    · subst h; exact ⟨rfl, rfl⟩
    · subst h; exact ⟨rfl, rfl⟩
    · subst h; exact ⟨rfl, rfl⟩
    · subst h; simp [Response.ok, Response.json] at hfail
    · subst h; exact ⟨rfl, rfl⟩
    · subst h; exact ⟨rfl, rfl⟩
    · subst h
      unfold fallbackCallback at hfail ⊢
      cases hfb : w.fallback.error with
      | some fe => exact ⟨rfl, rfl⟩
      | none => simp [hfb, Response.ok, Response.json] at hfail
  · intro w model message r hr hfail
    rcases ollamaHandler_responses w model message r hr with ⟨e, rfl⟩ | ⟨e, he⟩ | he | ⟨v, rfl⟩
    · exact ⟨rfl, rfl⟩
    · simp only [ollamaCatch, Event.respond.injEq] at he
      subst he
      exact ⟨rfl, rfl⟩
    · simp only [ollamaModelNotFound, Event.respond.injEq] at he
      subst he
      exact ⟨rfl, rfl⟩
    · simp [Response.ok, Response.json] at hfail
  · intro apiKey toStr fetch message r hr hfail
    rcases geminiHandler_responses apiKey toStr fetch message r hr with h | ⟨e, rfl⟩
    · simp [Response.ok, h] at hfail
    · exact ⟨rfl, rfl, rfl⟩

/-- C17 as amended, at the 404 of the GGUF handler for a name the catalog
lacks. -/
theorem failure_responses_members_witness :
    ((modelNotInCatalog "b.gguf").field "error").isSome = true
      ∧ ((modelNotInCatalog "b.gguf").field "message").isSome = true :=
  failure_responses_members.1 demoCfg demoWorld "b.gguf" (some (.str "hi")) demoFS
    (modelNotInCatalog "b.gguf")
    (by
      have h : responses (ggufHandler demoCfg demoWorld "b.gguf" (some (.str "hi")) demoFS).2
          = [modelNotInCatalog "b.gguf"] := rfl
      rw [h]
      exact List.mem_singleton.mpr rfl)
    (by decide)

/-- C18: the responses of a GGUF request do not depend on the faults of the
removals: two runs that differ only in whether `unlinkSync` and `rmdirSync`
throw send the same responses; and whenever the primary child was launched,
the cleanup pass is attempted (its first call, the unlink of the prompt file,
is made), whatever the read of the output file did. -/
theorem ggufHandler_cleanup_independent (cfg : ServerCfg) (w : GgufWorld) (faults2 : Faults)
    (modelName : String) (message : JsVal) (fs : FS)
    (hmkdir : ∀ p, faults2 (.mkdir p) = w.faults (.mkdir p))
    (hwrite : ∀ p, faults2 (.write p) = w.faults (.write p))
    (hread : ∀ p, faults2 (.read p) = w.faults (.read p)) :
    responses (ggufHandler cfg { w with faults := faults2 } modelName message fs).2
        = responses (ggufHandler cfg w modelName message fs).2
      ∧ (∀ modelPath text, (ggufStart cfg w modelName message fs).2.2 = some (modelPath, text) →
          FsOp.unlink (promptFile (tempDir cfg.modelsDir w.now))
            ∈ fsCalls (ggufHandler cfg w modelName message fs).2) := by
  have hstart := ggufStart_faults cfg w faults2 modelName message fs hmkdir hwrite
  refine ⟨?_, ?_⟩
  · cases hl : (ggufStart cfg w modelName message fs).2.2 with
    | none =>
      have hl2 : (ggufStart cfg { w with faults := faults2 } modelName message fs).2.2 = none := by
        rw [hstart]; exact hl
      simp only [ggufHandler, hl, hl2, hstart]
    | some launched =>
      obtain ⟨modelPath, text⟩ := launched
      have h1 := ggufHandler_launched cfg w modelName message fs _ _ modelPath text
        (Prod.ext rfl (Prod.ext rfl hl))
      have h2 := ggufHandler_launched cfg { w with faults := faults2 } modelName message fs _ _
        modelPath text (Prod.ext rfl (Prod.ext rfl (by rw [hstart]; exact hl)))
      rw [h1.1, h2.1, hstart]
      have hout : outputRead cfg { w with faults := faults2 } (ggufStart cfg w modelName message fs).1
          = outputRead cfg w (ggufStart cfg w modelName message fs).1 := by
        simp only [outputRead, readResponse_faults w.faults faults2 _ _ hread]
      rw [hout]
      rfl
  · intro modelPath text hl
    simp only [ggufHandler, hl, primaryCallback, fsCalls_append, List.mem_append]
    exact Or.inr (Or.inl (Or.inr (cleanup_attempted _ _ _ _ _)))

set_option maxRecDepth 20000 in
/-- C18 at a child killed after writing part of its answer, when the read of
the output file throws: with removals that throw and with removals that
succeed the response is the same, and the unlink of the prompt file is
attempted. -/
theorem ggufHandler_cleanup_independent_witness :
    responses (ggufHandler demoCfg brokenDiskWorld "a.gguf" (some (.str "hi")) demoFS).2
        = responses (ggufHandler demoCfg unreadableWorld "a.gguf" (some (.str "hi")) demoFS).2
      ∧ FsOp.unlink (promptFile (tempDir "/srv/models" 1700000000000))
          ∈ fsCalls (ggufHandler demoCfg unreadableWorld "a.gguf" (some (.str "hi")) demoFS).2 :=
  ⟨(ggufHandler_cleanup_independent demoCfg unreadableWorld brokenDiskWorld.faults "a.gguf"
      (some (.str "hi")) demoFS (fun _ => rfl) (fun _ => rfl) (fun _ => rfl)).1,
   (ggufHandler_cleanup_independent demoCfg unreadableWorld brokenDiskWorld.faults "a.gguf"
      (some (.str "hi")) demoFS (fun _ => rfl) (fun _ => rfl) (fun _ => rfl)).2
      "/srv/models/a.gguf" "hi" rfl⟩

set_option maxRecDepth 20000 in
/-- C19 as stated fails: a primary child killed at the deadline and one that
exits with code 1, both without output and with the same message, get the
same response, the generic failure: nothing in it tells the timeout apart. -/
theorem ggufHandler_timeout_not_distinguished :
    responses (ggufHandler demoCfg timedOutWorld "a.gguf" (some (.str "hi")) demoFS).2
        = responses (ggufHandler demoCfg crashedWorld "a.gguf" (some (.str "hi")) demoFS).2
      ∧ responses (ggufHandler demoCfg timedOutWorld "a.gguf" (some (.str "hi")) demoFS).2
        = [processFailure "llama-main" "Command failed: llama-main"]
      ∧ timedOutWorld.primary.error ≠ crashedWorld.primary.error := by
  refine ⟨rfl, rfl, by decide⟩

/-- C19 as amended: the response to a primary child that ended with an error
depends on the error only through its message: two runs that differ only in
whether the child was killed, in its exit code and in its signal send the
same responses. -/
theorem ggufHandler_error_kind_ignored (cfg : ServerCfg) (w : GgufWorld) (modelName : String)
    (message : JsVal) (fs : FS) (e1 e2 : ExecError) (hmessage : e1.message = e2.message) :
    responses (ggufHandler cfg { w with primary := { w.primary with error := some e1 } }
        modelName message fs).2
      = responses (ggufHandler cfg { w with primary := { w.primary with error := some e2 } }
        modelName message fs).2 := by
  have hstart : ∀ e : ExecError,
      ggufStart cfg { w with primary := { w.primary with error := some e } } modelName message fs
        = ggufStart cfg w modelName message fs := fun _ => rfl
  cases hl : (ggufStart cfg w modelName message fs).2.2 with
  | none =>
    simp only [ggufHandler, hstart, hl]
  | some launched =>
    obtain ⟨modelPath, text⟩ := launched
    have h := fun e : ExecError =>
      ggufHandler_launched cfg { w with primary := { w.primary with error := some e } } modelName
        message fs _ _ modelPath text (Prod.ext rfl (Prod.ext rfl (by rw [hstart e]; exact hl)))
    rw [(h e1).1, (h e2).1]
    simp only [afterCleanup, hstart, hmessage]
    rfl

/-- C19 as amended, at a child killed at the deadline and a child that exits
with code 1. -/
theorem ggufHandler_error_kind_ignored_witness :
    responses (ggufHandler demoCfg timedOutWorld "a.gguf" (some (.str "hi")) demoFS).2
      = responses (ggufHandler demoCfg crashedWorld "a.gguf" (some (.str "hi")) demoFS).2 :=
  ggufHandler_error_kind_ignored demoCfg timedOutWorld "a.gguf" (some (.str "hi")) demoFS
    { message := "Command failed: llama-main", killed := true, signal := some "SIGTERM" }
    { message := "Command failed: llama-main", code := some 1 } rfl

set_option maxRecDepth 20000 in
/-- C20: for every file system and environment, `findLlamaCppExecutable`
returns the first existing candidate when the candidates `<dir>/<name>` are
enumerated directory by directory in list order and, within a directory, name
by name in list order; when no candidate exists it returns `LLAMA_PATH` if
that is set and non-empty, and `llama-main` otherwise; the result is never
the empty string.  The function is total: it never fails.  On a machine with
only `/usr/local/bin/llama` and `/opt/llama/main` it returns the former. -/
theorem findLlamaCppExecutable_result (home llamaPathEnv : Option String) (fs : FS) :
    findLlamaCppExecutable home llamaPathEnv fs
        = ((llamaCandidates home).find? (fun c => fs.existsSync c)).getD
            (match llamaPathEnv with
             | some configured => if configured ≠ "" then configured else "llama-main"
             | none => "llama-main")
      ∧ findLlamaCppExecutable home llamaPathEnv fs ≠ ""
      ∧ findLlamaCppExecutable (some "/home/u") (some "/x/llama") toolsFS = "/usr/local/bin/llama" := by
  have heq : findLlamaCppExecutable home llamaPathEnv fs
      = ((llamaCandidates home).find? (fun c => fs.existsSync c)).getD
          (match llamaPathEnv with
           | some configured => if configured ≠ "" then configured else "llama-main"
           | none => "llama-main") := by
    unfold findLlamaCppExecutable llamaCandidates
    rw [findInDirectories_eq]
    cases ((possiblePaths home).flatMap
      (fun dir => possibleExecutables.map (fun name => dir ++ "/" ++ name))).find?
      (fun c => fs.existsSync c) <;> rfl
  refine ⟨heq, ?_, by decide⟩
  rw [heq]
  cases hfind : (llamaCandidates home).find? (fun c => fs.existsSync c) with
  | some c =>
    have hmem := List.mem_of_find?_eq_some hfind
    simp only [llamaCandidates, List.mem_flatMap, List.mem_map] at hmem
    obtain ⟨dir, _, name, _, rfl⟩ := hmem
    simpa using candidate_ne_empty dir name
  | none =>
    simp only [Option.getD_none]
    cases llamaPathEnv with
    | none => decide
    | some configured =>
      by_cases hc : configured = ""
      · simp [hc]
      · simp [hc]

set_option maxRecDepth 20000 in
/-- C21, at a failing input: on a machine where `/usr/local/bin/llama`
exists, after the setup script has written `LLAMA_PATH=/opt/custom/llama-cli`
to `backend/.env`, `findLlamaCppExecutable` returns `/usr/local/bin/llama`
and not the configured path; the configured path is used only when no
candidate exists. -/
theorem findLlamaCppExecutable_ignores_configured :
    setPath none "/opt/custom/llama-cli" = "\nLLAMA_PATH=/opt/custom/llama-cli\n"
      ∧ findLlamaCppExecutable (some "/home/u") (some "/opt/custom/llama-cli") toolsFS
          = "/usr/local/bin/llama"
      ∧ findLlamaCppExecutable (some "/home/u") (some "/opt/custom/llama-cli") toolsFS
          ≠ "/opt/custom/llama-cli"
      ∧ findLlamaCppExecutable (some "/home/u") (some "/opt/custom/llama-cli") demoFS
          = "/opt/custom/llama-cli" := by
  decide

set_option maxRecDepth 20000 in
/-- C22, at a failing input: when the prior content has `LLAMA_PATH=` inside
another line (a commented line, or the key `OLLAMA_PATH`), `setPath` rewrites
the end of that line and the content it writes has no line
`LLAMA_PATH=<path>`; for a file that does not exist, and for a file with a
line `LLAMA_PATH=...`, the content written has one. -/
theorem setPath_rewrites_other_line :
    (setPath (some "# LLAMA_PATH=/old/llama\n") "/new/llama" = "# LLAMA_PATH=/new/llama\n"
        ∧ definesLlamaPath (setPath (some "# LLAMA_PATH=/old/llama\n") "/new/llama") "/new/llama"
            = false)
      ∧ (setPath (some "OLLAMA_PATH=/usr/bin/ollama\n") "/new/llama" = "OLLAMA_PATH=/new/llama\n"
        ∧ definesLlamaPath (setPath (some "OLLAMA_PATH=/usr/bin/ollama\n") "/new/llama")
            "/new/llama" = false)
      ∧ definesLlamaPath (setPath none "/new/llama") "/new/llama" = true
      ∧ definesLlamaPath
          (setPath (some "GEMINI_API_KEY=abc\nLLAMA_PATH=/old/llama\nPORT=3001\n") "/new/llama")
          "/new/llama" = true := by
  decide

/-- C23 as stated fails: for the payload `null` the listing does not extract
the empty list but throws on reading `models`, and the handler answers with
the failure of status 500; and a list with an entry `null` is not normalised:
the normalisation throws at that entry. -/
theorem listing_null_payload :
    extractModels .null = .error (typeErrorRead "null" "models")
      ∧ responses (ollamaModelsHandler missingModelWorld.version
          (.reply { ok := true, status := 200, json := .ok .null }))
        = [listingFailed (typeErrorRead "null" "models")]
      ∧ (listingFailed (typeErrorRead "null" "models")).status = 500
      ∧ processedModels [.str "llama3", .null] = .error (typeErrorRead "null" "name") := by
  refine ⟨rfl, ?_, rfl, rfl⟩
  simp [ollamaModelsHandler, missingModelWorld, listingProbe, readProp, getProp, listingOnTags,
    extractModels, responses]

/-- C23 as amended: for every payload other than `null`, the model list
extracted is `payload.models` when that is a list, else the payload itself
when it is a list, else the empty list; when the daemon answered OK and the
logging of the names does not throw (no entry of that list is `null`, and the
truthy `name` of each entry, or else the entry, converts to a string), the
handler sends that list as `models`; and the normalisation of a list without
an entry `null` succeeds and gives, entry by entry, a form whose `name` is
the identifier of the entry: the entry itself when it is a string, else its
truthy `name`, else its truthy `model`. -/
theorem listing_extraction_and_normalisation (data : Json) (hdata : data ≠ .null) :
    (∀ models, getProp data "models" = some (.arr models) → extractModels data = .ok models)
      ∧ (∀ models, (∀ xs, getProp data "models" ≠ some (.arr xs)) → data = .arr models →
          extractModels data = .ok models)
      ∧ ((∀ xs, getProp data "models" ≠ some (.arr xs)) → (∀ xs, data ≠ .arr xs) →
          extractModels data = .ok [])
      ∧ (∀ (version : FetchResult) (r : HttpReply) (models : List Json),
          listingProbe version = none → r.ok = true → r.json = .ok data →
          extractModels data = .ok models → logModelNames models = none →
          responses (ollamaModelsHandler version (.reply r))
            = [Response.json [("models", some (.arr models))]])
      ∧ (∀ models : List Json, (∀ m ∈ models, m ≠ .null) →
          ∃ out, processedModels models = .ok out ∧ List.Forall₂ exposesIdentifier models out) := by
  have hread := readProp_of_ne_null data "models" hdata
  refine ⟨?_, ?_, ?_, ?_, ?_⟩
  · intro models hm
    simp [extractModels, hread, hm]
  · intro models hnot hd
    subst hd
    simp [extractModels, readProp, getProp]
  · intro hnot hnotarr
    unfold extractModels
    rw [hread]
    cases hm : getProp data "models" with
    | none =>
      cases data <;> first | rfl | exact absurd rfl (hnotarr _)
    | some v =>
      cases v with
      | arr xs => exact absurd hm (hnot xs)
      | null => cases data <;> first | rfl | exact absurd rfl (hnotarr _)
      | bool b => cases data <;> first | rfl | exact absurd rfl (hnotarr _)
      | num q => cases data <;> first | rfl | exact absurd rfl (hnotarr _)
      | str s => cases data <;> first | rfl | exact absurd rfl (hnotarr _)
      | obj kvs => cases data <;> first | rfl | exact absurd rfl (hnotarr _)
  · intro version r models hprobe hok hjson hextract hlog
    simp [ollamaModelsHandler, hprobe, listingOnTags, hok, hjson, hextract, hlog, responses]
  · intro models hnonull
    exact processedModels_exposes models hnonull

/-- C23 as amended, at the wrapped payload `{ models: [{ model: "llama3" }, "phi3"] }`. -/
theorem listing_extraction_and_normalisation_witness :
    extractModels (.obj [("models", .arr [.obj [("model", .str "llama3")], .str "phi3"])])
        = .ok [.obj [("model", .str "llama3")], .str "phi3"]
      ∧ ∃ out, processedModels [.obj [("model", .str "llama3")], .str "phi3"] = .ok out
          ∧ List.Forall₂ exposesIdentifier [.obj [("model", .str "llama3")], .str "phi3"] out :=
  ⟨(listing_extraction_and_normalisation
      (.obj [("models", .arr [.obj [("model", .str "llama3")], .str "phi3"])]) (by simp)).1 _ rfl,
   (listing_extraction_and_normalisation
      (.obj [("models", .arr [.obj [("model", .str "llama3")], .str "phi3"])]) (by simp)).2.2.2.2
      _ (by simp)⟩

set_option maxRecDepth 20000 in
/-- C24, at a failing input: for a prompt that holds a NUL byte and a primary
child that exits without error and writes nothing, the `exec` of the fallback
throws inside the callback of the primary child, outside any `try`: the
handler sends no response at all, and the error escapes. -/
theorem ggufHandler_nul_prompt_no_response :
    responses (ggufHandler demoCfg silentWorld "a.gguf" (some (.str "a\x00b")) demoFS).2 = []
      ∧ uncaughts (ggufHandler demoCfg silentWorld "a.gguf" (some (.str "a\x00b")) demoFS).2
        = [nullBytesError silentWorld.inspect
            (fallbackCommand "llama-main" "/srv/models/a.gguf" "a\x00b")] := by
  refine ⟨rfl, by decide⟩

set_option maxRecDepth 20000 in
/-- C25: the identifier rewriting maps `m` to `deepseek-coder:1.5b` when the
lower-cased `m` contains `deepseek` and `m` does not contain
`deepseek-coder:1.5b`, and returns `m` unchanged otherwise; it is idempotent;
and an identifier whose lower-cased form lacks `deepseek` is not rewritten. -/
theorem actualModel_rewriting (m : String) :
    actualModel m
        = (if includes (toLowerCase m) "deepseek" = true ∧ includes m "deepseek-coder:1.5b" = false
           then "deepseek-coder:1.5b" else m)
      ∧ actualModel (actualModel m) = actualModel m
      ∧ (includes (toLowerCase m) "deepseek" = false → actualModel m = m) := by
  have htarget : actualModel "deepseek-coder:1.5b" = "deepseek-coder:1.5b" := by decide
  refine ⟨?_, ?_, ?_⟩
  · unfold actualModel
    by_cases h1 : includes (toLowerCase m) "deepseek" = true <;>
      by_cases h2 : includes m "deepseek-coder:1.5b" = true <;> simp [h1, h2]
  · by_cases h : includes (toLowerCase m) "deepseek" = true ∧ ¬ includes m "deepseek-coder:1.5b" = true
    · have hm : actualModel m = "deepseek-coder:1.5b" := by
        unfold actualModel
        rw [if_pos h]
      rw [hm, htarget]
    · have hm : actualModel m = m := by
        unfold actualModel
        rw [if_neg h]
      rw [hm, hm]
  · intro h
    simp [actualModel, h]

set_option maxRecDepth 20000 in
/-- C25 at `llama3`, which lacks `deepseek`, and at `DeepSeek-R1`, which is
rewritten. -/
theorem actualModel_rewriting_witness :
    actualModel "llama3" = "llama3" ∧ actualModel "DeepSeek-R1" = "deepseek-coder:1.5b" :=
  ⟨(actualModel_rewriting "llama3").2.2 (by decide),
   (actualModel_rewriting "DeepSeek-R1").1.trans (by decide)⟩

set_option maxRecDepth 20000 in
/-- C26, at a failing input: when the primary child exits cleanly without
output and the fallback child exits cleanly and prints nothing, the handler
answers with a success whose text is the empty string; the callback of the
fallback does not test its text as the callback of the primary child does. -/
theorem ggufHandler_empty_success :
    responses (ggufHandler demoCfg emptyFallbackWorld "a.gguf" (some (.str "hi")) demoFS).2
        = [Response.json [("response", some (.str ""))]]
      ∧ (Response.json [("response", some (.str ""))]).ok = true := by
  refine ⟨rfl, by decide⟩

/-- C27: from a non-empty chat history whose active chat id is the id of one
of its chats, `deleteChat` gives a non-empty history whose active chat id is
the id of one of its chats; when every chat has the deleted id, the history
becomes the single fresh chat `New Chat` without messages, and it is active;
when the active chat is deleted and others remain, the first remaining chat
becomes active; when another chat is deleted the active chat stays. -/
theorem deleteChat_invariant (now : Nat) (state : ChatState) (chatId : Nat)
    (hnonempty : state.chatHistory ≠ [])
    (hactive : ∃ chat ∈ state.chatHistory, state.activeChatId = some chat.id) :
    (deleteChat now state chatId).chatHistory ≠ []
      ∧ (∃ chat ∈ (deleteChat now state chatId).chatHistory,
          (deleteChat now state chatId).activeChatId = some chat.id)
      ∧ ((∀ chat ∈ state.chatHistory, chat.id = chatId) →
          (deleteChat now state chatId).chatHistory
              = [{ id := now, title := "New Chat", messages := [] }]
            ∧ (deleteChat now state chatId).activeChatId = some now)
      ∧ (∀ first rest,
          state.chatHistory.filter (fun chat => chat.id != chatId) = first :: rest →
            (deleteChat now state chatId).chatHistory = first :: rest
              ∧ (state.activeChatId = some chatId →
                  (deleteChat now state chatId).activeChatId = some first.id)
              ∧ (state.activeChatId ≠ some chatId →
                  (deleteChat now state chatId).activeChatId = state.activeChatId)) := by
  have _ := hnonempty
  obtain ⟨active, hmem, hid⟩ := hactive
  cases hfilter : state.chatHistory.filter (fun chat => chat.id != chatId) with
  | nil =>
    have hnext : deleteChat now state chatId
        = { chatHistory := [{ id := now, title := "New Chat", messages := [] }],
            activeChatId := some now } := by
      simp only [deleteChat, hfilter]
    rw [hnext]
    refine ⟨by simp, ⟨_, List.mem_singleton.mpr rfl, rfl⟩, fun _ => ⟨rfl, rfl⟩, ?_⟩
    intro first rest h
    cases h
  | cons first rest =>
    by_cases hdel : state.activeChatId = some chatId
    · have hnext : deleteChat now state chatId
          = { chatHistory := first :: rest, activeChatId := some first.id } := by
        simp only [deleteChat, hfilter, hdel, if_true]
      rw [hnext]
      refine ⟨by simp, ⟨first, List.mem_cons_self _ _, rfl⟩, ?_, ?_⟩
      · intro hall
        have hfirst : first ∈ state.chatHistory.filter (fun chat => chat.id != chatId) := by
          rw [hfilter]; exact List.mem_cons_self _ _
        rw [List.mem_filter] at hfirst
        have := hall first hfirst.1
        simp [this] at hfirst
      · intro f r h
        cases h
        exact ⟨rfl, fun _ => rfl, fun hne => absurd hdel hne⟩
    · have hnext : deleteChat now state chatId
          = { chatHistory := first :: rest, activeChatId := state.activeChatId } := by
        simp only [deleteChat, hfilter, hdel, if_false]
      rw [hnext]
      have hkept : active ∈ first :: rest := by
        rw [← hfilter, List.mem_filter]
        refine ⟨hmem, ?_⟩
        have hne : active.id ≠ chatId := by
          intro h
          rw [hid, h] at hdel
          exact hdel rfl
        simpa using hne
      refine ⟨by simp, ⟨active, hkept, hid⟩, ?_, ?_⟩
      · intro hall
        have := hall active hmem
        rw [hid, this] at hdel
        exact absurd rfl hdel
      · intro f r h
        cases h
        exact ⟨rfl, fun h => absurd h hdel, fun _ => rfl⟩

/-- C27 at the deletion of the active chat of two: the other becomes active. -/
theorem deleteChat_invariant_witness :
    (deleteChat 1700000000002 demoChats 1700000000001).chatHistory ≠ []
      ∧ (∃ chat ∈ (deleteChat 1700000000002 demoChats 1700000000001).chatHistory,
          (deleteChat 1700000000002 demoChats 1700000000001).activeChatId = some chat.id) :=
  ⟨(deleteChat_invariant 1700000000002 demoChats 1700000000001 (by simp [demoChats])
      ⟨_, List.mem_cons_self _ _, rfl⟩).1,
   (deleteChat_invariant 1700000000002 demoChats 1700000000001 (by simp [demoChats])
      ⟨_, List.mem_cons_self _ _, rfl⟩).2.1⟩

end AIChat
